import Mathlib

/-!
A verification development for the olink target-resolution engine
(`src/olink/core/{exceptions,project,targets,catalog}.py`), embedded shallowly:

* the error taxonomy becomes `OlinkError`;
* the local filesystem, as the engine observes it, becomes `Directory`
  (git entry, git config, and each package manifest as its extractor reads it);
* the regex-based remote-URL parser becomes executable functions over `List Char`
  (the three patterns anchor at the start, split the host at the first `:` or `/`,
  the owner at the next `/`, and lazily strip one trailing `.git`);
* registry, targets and the resolution facade become Lean functions returning
  `Except OlinkError`.

Two Python regex fringe behaviors are not modelled: `$` also matching just
before a final newline, and `.` not matching a newline inside the repo capture.
No claim below depends on inputs containing newlines.
-/

namespace Olink

/-- The error kinds of `exceptions.py` (flat taxonomy). -/
inductive ErrKind where
  | notGitRepo
  | noRemote
  | unknownPlatform
  | unknownTarget
  | projectMetadata
  | unsupportedFeature
  deriving Repr, DecidableEq

/-- `olink.core.exceptions`: each error carries its message. -/
inductive OlinkError where
  | notGitRepo (msg : String)
  | noRemote (msg : String)
  | unknownPlatform (msg : String)
  | unknownTarget (msg : String)
  | projectMetadata (msg : String)
  | unsupportedFeature (msg : String)
  deriving Repr, DecidableEq

deriving instance DecidableEq for Except

def OlinkError.kind : OlinkError → ErrKind
  | .notGitRepo _ => .notGitRepo
  | .noRemote _ => .noRemote
  | .unknownPlatform _ => .unknownPlatform
  | .unknownTarget _ => .unknownTarget
  | .projectMetadata _ => .projectMetadata
  | .unsupportedFeature _ => .unsupportedFeature

/-- A result fails with an error of kind `k`. -/
def failsWith {α : Type} (r : Except OlinkError α) (k : ErrKind) : Prop :=
  ∃ e, r = .error e ∧ e.kind = k

/-- Python `", ".join l`. -/
def joinComma : List String → String
  | [] => ""
  | [x] => x
  | x :: y :: xs => x ++ ", " ++ joinComma (y :: xs)

/-- Lexicographic code-point comparison (the order of Python `sorted` on
strings). -/
def charListLt : List Char → List Char → Bool
  | [], [] => false
  | [], _ :: _ => true
  | _ :: _, [] => false
  | a :: as, b :: bs =>
    if a.toNat < b.toNat then true
    else if b.toNat < a.toNat then false
    else charListLt as bs

def stringLt (a b : String) : Bool := charListLt a.data b.data

/-- Insert into an ascending list (code-point order, as Python `sorted`). -/
def insertSorted (s : String) : List String → List String
  | [] => [s]
  | x :: xs => if stringLt x s then x :: insertSorted s xs else s :: x :: xs

/-- Python `sorted` on strings. -/
def sortStrings (l : List String) : List String :=
  l.foldr insertSorted []

/-- Split a character list at the first occurrence of `c`
(the behavior of `str.split(c, 1)` when `c` occurs). -/
def splitFirst (c : Char) : List Char → Option (List Char × List Char)
  | [] => none
  | x :: xs =>
    if x = c then some ([], xs)
    else
      match splitFirst c xs with
      | none => none
      | some (a, b) => some (x :: a, b)

def dotGitChars : List Char := ['.', 'g', 'i', 't']

/-- The lazy `(?P<repo>.+?)(?:\.git)?$` tail of the three remote patterns:
the shortest nonempty repo wins, so exactly one trailing `.git` is dropped —
unless the whole segment is `.git`, which the lazy group must swallow itself. -/
def stripDotGit (l : List Char) : List Char :=
  if 4 < l.length ∧ dotGitChars <:+ l then l.take (l.length - 4) else l

-- ===========================================================================
-- Remote Parser (project.py: SSH_PATTERN / HTTPS_PATTERN / GIT_PATTERN,
-- HOST_TO_PLATFORM, parse_remote_url)
-- ===========================================================================

/-- The shared `(?P<owner>[^/]+)/(?P<repo>.+?)(?:\.git)?$` tail. -/
def matchOwnerRepo (l : List Char) : Option (List Char × List Char) :=
  match splitFirst '/' l with
  | none => none
  | some (owner, rest) =>
    if owner = [] then none
    else if rest = [] then none
    else some (owner, stripDotGit rest)

/-- `^git@(?P<host>[^:]+):` then owner/repo. -/
def matchSSH (l : List Char) : Option (List Char × List Char × List Char) :=
  if ['g', 'i', 't', '@'] <+: l then
    match splitFirst ':' (l.drop 4) with
    | none => none
    | some (host, rest) =>
      if host = [] then none
      else
        match matchOwnerRepo rest with
        | none => none
        | some (owner, repo) => some (host, owner, repo)
  else none

/-- `(?P<host>[^/]+)/` then owner/repo (used after a scheme). -/
def matchHostOwnerRepo (l : List Char) : Option (List Char × List Char × List Char) :=
  match splitFirst '/' l with
  | none => none
  | some (host, rest) =>
    if host = [] then none
    else
      match matchOwnerRepo rest with
      | none => none
      | some (owner, repo) => some (host, owner, repo)

/-- `^https?://` then host/owner/repo. -/
def matchHTTPS (l : List Char) : Option (List Char × List Char × List Char) :=
  if ['h', 't', 't', 'p', 's', ':', '/', '/'] <+: l then matchHostOwnerRepo (l.drop 8)
  else if ['h', 't', 't', 'p', ':', '/', '/'] <+: l then matchHostOwnerRepo (l.drop 7)
  else none

/-- `^git://` then host/owner/repo. -/
def matchGIT (l : List Char) : Option (List Char × List Char × List Char) :=
  if ['g', 'i', 't', ':', '/', '/'] <+: l then matchHostOwnerRepo (l.drop 6)
  else none

def HOST_TO_PLATFORM : List (String × String) :=
  [("github.com", "github"), ("www.github.com", "github"),
   ("gitlab.com", "gitlab"), ("www.gitlab.com", "gitlab"),
   ("bitbucket.org", "bitbucket"), ("www.bitbucket.org", "bitbucket")]

/-- Exact table lookup on the lowercased host, then the substring heuristics
(gitlab, github, bitbucket, in the order of `parse_remote_url`). -/
def platformOf (host : List Char) : Except OlinkError String :=
  let lh := host.map Char.toLower
  match HOST_TO_PLATFORM.lookup (String.mk lh) with
  | some p => .ok p
  | none =>
    if "gitlab".toList <:+: lh then .ok "gitlab"
    else if "github".toList <:+: lh then .ok "github"
    else if "bitbucket".toList <:+: lh then .ok "bitbucket"
    else .error (.unknownPlatform ("Unknown git hosting platform: " ++ String.mk host))

/-- `project.ParsedRemote`. -/
structure ParsedRemote where
  platform : String
  host : String
  owner : String
  repo : String
  deriving Repr, DecidableEq

def ParsedRemote.baseUrl (p : ParsedRemote) : String :=
  "https://" ++ p.host ++ "/" ++ p.owner ++ "/" ++ p.repo

/-- `project.parse_remote_url`: the three patterns in order, first match wins;
a match with an unrecognized host raises at once. -/
def parseRemoteUrl (url : String) : Except OlinkError ParsedRemote :=
  match matchSSH url.toList <|> matchHTTPS url.toList <|> matchGIT url.toList with
  | some (h, o, r) =>
    match platformOf h with
    | .ok p => .ok ⟨p, String.mk h, String.mk o, String.mk r⟩
    | .error e => .error e
  | none => .error (.unknownPlatform ("Could not parse remote URL: " ++ url))

-- ===========================================================================
-- Git Config Reader (project.py: _get_git_dir, _read_git_config, get_remote_url)
-- ===========================================================================

/-- A parsed `.git/config`: INI sections, each a list of key/value pairs. -/
structure GitConfig where
  sections : List (String × List (String × String))
  deriving Repr, DecidableEq

/-- The `.git` entry of a directory: absent, a directory, or a pointer file. -/
inductive DotGit where
  | absent
  | directory
  | file (content : String)
  deriving Repr, DecidableEq

/-- The manifest kinds read through `tomllib.load` / `json.load`, as the
extractor observes them: a parse failure, or a document whose relevant name
field is absent, a non-string value, or a string. -/
inductive PyVal where
  | str (s : String)
  | nonStr
  deriving Repr, DecidableEq

/-- A structured manifest on the domain where the extractors raise only
`OlinkError`s: absent handled by the caller, parse failure, or a parsed
document whose relevant container (`project`/`package` table, JSON top level)
IS a dict, carrying the name field found in it. The remaining state of the
real code — parse success with a non-dict container, on which the `.get`
chain crashes with `AttributeError` — is outside this type; it is modelled
separately by `StructuredFileX` below and decides claim C7. -/
inductive StructuredFile where
  | malformed (msg : String)
  | doc (nameField : Option PyVal)
  deriving Repr, DecidableEq

/-- A `*.csproj` file: its `<PackageId>` element if any, and its filename stem. -/
structure CsprojFile where
  packageId : Option String
  stem : String
  deriving Repr, DecidableEq

/-- A directory as the engine observes it through the filesystem: the `.git`
entry (with the config found inside `.git` when it is a directory, and the
config found at the pointed-to location when it is a `gitdir:` file), and each
package manifest. For the line-oriented manifests (`go.mod`, `pubspec.yaml`,
`mix.exs`, `*.gemspec`) the file is represented by its regex search result:
`none` = file absent, `some none` = present without the pattern,
`some (some s)` = present with captured name `s`. -/
structure Directory where
  path : String
  dotGit : DotGit
  dirConfig : Option GitConfig
  pointedConfig : Option GitConfig
  pyprojectToml : Option StructuredFile
  packageJson : Option StructuredFile
  cargoToml : Option StructuredFile
  goMod : Option (Option String)
  gemspecs : List (Option String)
  composerJson : Option StructuredFile
  pubspecYaml : Option (Option String)
  mixExs : Option (Option String)
  csprojFiles : List CsprojFile
  deriving Repr, DecidableEq

/-- `project._get_git_dir`: `none` = no resolvable git directory; otherwise the
config file found inside it (`none` = no `config` file). -/
def getGitDir (d : Directory) : Option (Option GitConfig) :=
  match d.dotGit with
  | .absent => none
  | .directory => some d.dirConfig
  | .file content =>
    if (content.trim).startsWith "gitdir:" then some d.pointedConfig else none

/-- `project._read_git_config`. -/
def readGitConfig (d : Directory) : Except OlinkError GitConfig :=
  match getGitDir d with
  | none => .error (.notGitRepo ("'" ++ d.path ++ "' is not inside a git repository"))
  | some none => .error (.notGitRepo ("'" ++ d.path ++ "' is not inside a git repository"))
  | some (some cfg) => .ok cfg

/-- `project.get_remote_url`: absence of the section or key is `none`, not an error. -/
def getRemoteUrl (d : Directory) (remoteName : String) : Except OlinkError (Option String) :=
  match readGitConfig d with
  | .error e => .error e
  | .ok cfg =>
    let sect := "remote \"" ++ remoteName ++ "\""
    match cfg.sections.lookup sect with
    | none => .ok none
    | some kvs => .ok (kvs.lookup "url")

/-- `targets._get_parsed_remote`: a missing or empty remote URL is `NoRemoteError`. -/
def getParsedRemote (d : Directory) (remote : String) : Except OlinkError ParsedRemote :=
  match getRemoteUrl d remote with
  | .error e => .error e
  | .ok none => .error (.noRemote ("No '" ++ remote ++ "' remote configured"))
  | .ok (some url) =>
    if url = "" then .error (.noRemote ("No '" ++ remote ++ "' remote configured"))
    else parseRemoteUrl url

-- ===========================================================================
-- Platform Page Table (targets.py: PLATFORM_URLS, get_platform_url)
-- ===========================================================================

def PLATFORM_URLS : List (String × List (String × Option String)) :=
  [("github",
    [("issues", some "/issues"), ("pulls", some "/pulls"),
     ("actions", some "/actions"), ("wiki", some "/wiki"),
     ("releases", some "/releases"), ("branches", some "/branches"),
     ("commits", some "/commits"), ("security", some "/security"),
     ("discussions", some "/discussions")]),
   ("gitlab",
    [("issues", some "/-/issues"), ("pulls", some "/-/merge_requests"),
     ("actions", some "/-/pipelines"), ("wiki", some "/-/wikis"),
     ("releases", some "/-/releases"), ("branches", some "/-/branches"),
     ("commits", some "/-/commits"), ("security", some "/-/security/dashboard"),
     ("discussions", none)]),
   ("bitbucket",
    [("issues", some "/issues"), ("pulls", some "/pull-requests"),
     ("actions", some "/pipelines"), ("wiki", some "/wiki"),
     ("releases", some "/downloads"), ("branches", some "/branches"),
     ("commits", some "/commits"), ("security", none),
     ("discussions", none)])]

/-- `targets.get_platform_url`. -/
def getPlatformUrl (baseUrl platform page : String) : Except OlinkError String :=
  match PLATFORM_URLS.lookup platform with
  | none => .error (.unknownPlatform ("Unknown platform: '" ++ platform ++ "'"))
  | some pages =>
    match pages.lookup page with
    | none =>
      .error (.unsupportedFeature ("Unknown page '" ++ page ++ "' for " ++ platform ++
        ". Available: " ++ joinComma (sortStrings (pages.map Prod.fst))))
    | some none =>
      .error (.unsupportedFeature ("'" ++ page ++ "' is not available on " ++ platform))
    | some (some path) => .ok (baseUrl ++ path)

-- ===========================================================================
-- Ecosystem Registry (project.py: _get_*_name, ECOSYSTEMS, detect_ecosystems,
-- get_package_name)
-- ===========================================================================

/-- Common shape of the `tomllib`/`json` extractors on the `StructuredFile`
domain: file absent, parse error, or a name field that must be a nonempty
string (`if not name or not isinstance(name, str)`). The non-dict
`AttributeError` crash of the real extractors is modelled by
`extractStructuredNameX` below. -/
def extractStructuredName (f : Option StructuredFile) (noFileMsg : String)
    (invalidMsg : String → String) (noNameMsg : String) : Except OlinkError String :=
  match f with
  | none => .error (.projectMetadata noFileMsg)
  | some (.malformed e) => .error (.projectMetadata (invalidMsg e))
  | some (.doc nameField) =>
    match nameField with
    | some (.str s) =>
      if s = "" then .error (.projectMetadata noNameMsg) else .ok s
    | _ => .error (.projectMetadata noNameMsg)

/-- `project._get_pypi_name`: `project.name` of `pyproject.toml`. -/
def getPypiName (d : Directory) : Except OlinkError String :=
  extractStructuredName d.pyprojectToml "No pyproject.toml found"
    (fun e => "Invalid pyproject.toml: " ++ e) "No 'project.name' in pyproject.toml"

/-- `project._get_npm_name`: `name` of `package.json`. -/
def getNpmName (d : Directory) : Except OlinkError String :=
  extractStructuredName d.packageJson "No package.json found"
    (fun e => "Invalid package.json: " ++ e) "No 'name' in package.json"

/-- `project._get_cargo_name`: `package.name` of `Cargo.toml`. -/
def getCargoName (d : Directory) : Except OlinkError String :=
  extractStructuredName d.cargoToml "No Cargo.toml found"
    (fun e => "Invalid Cargo.toml: " ++ e) "No 'package.name' in Cargo.toml"

/-- Common shape of the line-oriented extractors: file absent, or the regex
search found no name, or the captured name. -/
def lineExtract (v : Option (Option String)) (noFileMsg noFieldMsg : String) :
    Except OlinkError String :=
  match v with
  | none => .error (.projectMetadata noFileMsg)
  | some none => .error (.projectMetadata noFieldMsg)
  | some (some n) => .ok n

/-- `project._get_go_name`: first `module <path>` line of `go.mod`. -/
def getGoName (d : Directory) : Except OlinkError String :=
  lineExtract d.goMod "No go.mod found" "No 'module' declaration in go.mod"

/-- `project._get_gems_name`: `<var>.name = "..."` in the first `*.gemspec`. -/
def getGemsName (d : Directory) : Except OlinkError String :=
  lineExtract d.gemspecs.head? "No .gemspec file found" "No 'name' in .gemspec file"

/-- `project._get_packagist_name`: `name` of `composer.json`. -/
def getPackagistName (d : Directory) : Except OlinkError String :=
  extractStructuredName d.composerJson "No composer.json found"
    (fun e => "Invalid composer.json: " ++ e) "No 'name' in composer.json"

/-- `project._get_pub_name`: `name:` line of `pubspec.yaml`. -/
def getPubName (d : Directory) : Except OlinkError String :=
  lineExtract d.pubspecYaml "No pubspec.yaml found" "No 'name' in pubspec.yaml"

/-- `project._get_hex_name`: `app: :<atom>` in `mix.exs`. -/
def getHexName (d : Directory) : Except OlinkError String :=
  lineExtract d.mixExs "No mix.exs found" "No 'app' in mix.exs"

/-- `project._get_nuget_name`: `<PackageId>` of the first `*.csproj`,
falling back to the filename stem. -/
def getNugetName (d : Directory) : Except OlinkError String :=
  match d.csprojFiles with
  | [] => .error (.projectMetadata "No .csproj file found")
  | f :: _ =>
    match f.packageId with
    | some pid => .ok pid
    | none => .ok f.stem

/-- `project.EcosystemConfig`: `manifestPresent` is `exists` (exact filename or
glob match), `extract` is `get_package_name`. -/
structure EcosystemConfig where
  name : String
  displayName : String
  configFile : String
  manifestPresent : Directory → Bool
  extract : Directory → Except OlinkError String

/-- `project.ECOSYSTEMS`, in the insertion order of the source dict. -/
def ECOSYSTEMS : List EcosystemConfig :=
  [⟨"pypi", "Python", "pyproject.toml", fun d => d.pyprojectToml.isSome, getPypiName⟩,
   ⟨"npm", "npm", "package.json", fun d => d.packageJson.isSome, getNpmName⟩,
   ⟨"cargo", "Rust", "Cargo.toml", fun d => d.cargoToml.isSome, getCargoName⟩,
   ⟨"go", "Go", "go.mod", fun d => d.goMod.isSome, getGoName⟩,
   ⟨"gems", "Ruby", "*.gemspec", fun d => !d.gemspecs.isEmpty, getGemsName⟩,
   ⟨"packagist", "PHP", "composer.json", fun d => d.composerJson.isSome, getPackagistName⟩,
   ⟨"pub", "Dart", "pubspec.yaml", fun d => d.pubspecYaml.isSome, getPubName⟩,
   ⟨"hex", "Elixir", "mix.exs", fun d => d.mixExs.isSome, getHexName⟩,
   ⟨"nuget", ".NET", "*.csproj", fun d => !d.csprojFiles.isEmpty, getNugetName⟩]

/-- The loop body of `project.detect_ecosystems`: a present manifest whose
extraction fails with `ProjectMetadataError` is skipped (logged only); any
other error would propagate out of the loop. -/
def detectFrom (d : Directory) : List EcosystemConfig → Except OlinkError (List String)
  | [] => .ok []
  | c :: rest =>
    if c.manifestPresent d then
      match c.extract d with
      | .ok _ =>
        match detectFrom d rest with
        | .ok l => .ok (c.name :: l)
        | .error e => .error e
      | .error e =>
        if e.kind = .projectMetadata then detectFrom d rest else .error e
    else detectFrom d rest

/-- `project.detect_ecosystems`. -/
def detectEcosystems (d : Directory) : Except OlinkError (List String) :=
  detectFrom d ECOSYSTEMS

/-- `project.get_package_name`. -/
def getPackageName (d : Directory) (eco : String) : Except OlinkError String :=
  match ECOSYSTEMS.find? (fun c => c.name = eco) with
  | none =>
    .error (.projectMetadata ("Unknown ecosystem: '" ++ eco ++ "'. Available: " ++
      joinComma (sortStrings (ECOSYSTEMS.map (fun c => c.name)))))
  | some cfg => cfg.extract d

-- ===========================================================================
-- URL encoding (urllib.parse.quote / urlencode as used in targets.py)
-- ===========================================================================

def hexDigit (n : Nat) : Char :=
  if n < 10 then Char.ofNat (48 + n) else Char.ofNat (55 + n)

def percentByte (b : Nat) : List Char :=
  ['%', hexDigit (b / 16), hexDigit (b % 16)]

/-- UTF-8 bytes of a character (as `quote` percent-encodes the UTF-8 form). -/
def utf8Bytes (c : Char) : List Nat :=
  let n := c.toNat
  if n < 128 then [n]
  else if n < 2048 then [192 + n / 64, 128 + n % 64]
  else if n < 65536 then [224 + n / 4096, 128 + (n / 64) % 64, 128 + n % 64]
  else [240 + n / 262144, 128 + (n / 4096) % 64, 128 + (n / 64) % 64, 128 + n % 64]

/-- The characters `quote` never encodes: ASCII letters, digits, `_.-~`. -/
def isAlwaysSafe (c : Char) : Bool :=
  ('a' ≤ c && c ≤ 'z') || ('A' ≤ c && c ≤ 'Z') || ('0' ≤ c && c ≤ '9') ||
    c = '_' || c = '.' || c = '-' || c = '~'

def quoteChar (safe : List Char) (c : Char) : List Char :=
  if isAlwaysSafe c || safe.contains c then [c]
  else (utf8Bytes c).flatMap percentByte

/-- `targets._encode_name`: `quote(name, safe="@/")`. -/
def encodeName (s : String) : String :=
  String.mk (s.toList.flatMap (quoteChar ['@', '/']))

/-- `quote(x, safe='')` (owner/repo in the codecov and coveralls targets). -/
def quoteNoSafe (s : String) : String :=
  String.mk (s.toList.flatMap (quoteChar []))

/-- One `key=value` pair of `urlencode` (`quote_plus` on both sides). -/
def quotePlusChar (c : Char) : List Char :=
  if c = ' ' then ['+']
  else if isAlwaysSafe c then [c]
  else (utf8Bytes c).flatMap percentByte

def urlencode1 (key value : String) : String :=
  String.mk (key.toList.flatMap quotePlusChar) ++ "=" ++
    String.mk (value.toList.flatMap quotePlusChar)

-- ===========================================================================
-- Targets (targets.py)
-- ===========================================================================

/-- `targets.MultiEcosystemTarget` subclass data: name, description, the
`ecosystem_url_map`, and `_build_url`. -/
structure MultiEcoSpec where
  name : String
  description : String
  ecosystemUrlMap : List (String × String)
  buildUrl : String → String → String

/-- The message of the `len(supported) > 1` branch of
`MultiEcosystemTarget.get_url`. -/
def ambiguousMsg (t : MultiEcoSpec) (supported : List String) : String :=
  "Multiple ecosystems detected (" ++ joinComma (sortStrings supported) ++
    "). Use: " ++ joinComma ((sortStrings supported).map (fun e => t.name ++ ":" ++ e))

def supportedJoin (t : MultiEcoSpec) : String :=
  joinComma (sortStrings (t.ecosystemUrlMap.map Prod.fst))

/-- The auto-detection arm of `MultiEcosystemTarget.get_url`: intersect the
detected ecosystems with the target's map; zero matches or more than one
match fail, a single match is used silently. -/
def autoEco (t : MultiEcoSpec) (detected : List String) : Except OlinkError String :=
  match detected.filter (fun e => (t.ecosystemUrlMap.lookup e).isSome) with
  | [] => .error (.projectMetadata ("No supported ecosystem found for '" ++
      t.name ++ "'. Supported: " ++ supportedJoin t))
  | [e] => .ok e
  | supported => .error (.projectMetadata (ambiguousMsg t supported))

/-- Auto-detection applied to the current directory. -/
def autoFromDetect (t : MultiEcoSpec) (d : Directory) : Except OlinkError String :=
  match detectEcosystems d with
  | .error err => .error err
  | .ok detected => autoEco t detected

/-- The ecosystem-selection phase of `MultiEcosystemTarget.get_url`. The guard
in the source is `if self._ecosystem:` — Python truthiness — so an ecosystem
that is `None` OR the empty string is treated as unset and auto-detected;
only a nonempty explicit ecosystem is validated against the map. -/
def chooseEco (t : MultiEcoSpec) (chosen : Option String) (d : Directory) :
    Except OlinkError String :=
  match chosen with
  | some e =>
    if e = "" then autoFromDetect t d
    else if (t.ecosystemUrlMap.lookup e).isSome then .ok e
    else .error (.projectMetadata ("'" ++ t.name ++
      "' doesn't support ecosystem '" ++ e ++ "'. Supported: " ++ supportedJoin t))
  | none => autoFromDetect t d

/-- `targets.MultiEcosystemTarget.get_url`: choose the ecosystem, extract the
package name, format the URL (the final map indexing cannot fail, the chosen
ecosystem having been validated against the map). -/
def multiGetUrl (t : MultiEcoSpec) (chosen : Option String) (d : Directory) :
    Except OlinkError String :=
  match chooseEco t chosen d with
  | .error e => .error e
  | .ok eco =>
    match getPackageName d eco with
    | .error e => .error e
    | .ok pkg =>
      match t.ecosystemUrlMap.lookup eco with
      | some ecoPath => .ok (t.buildUrl ecoPath pkg)
      | none => .error (.projectMetadata ("'" ++ t.name ++
          "' doesn't support ecosystem '" ++ eco ++ "'. Supported: " ++ supportedJoin t))

def snykTarget : MultiEcoSpec :=
  ⟨"snyk", "Open the Snyk security advisor",
   [("pypi", "python"), ("npm", "npm-package"), ("go", "golang"), ("cargo", "rust")],
   fun ecoPath pkg => "https://snyk.io/advisor/" ++ ecoPath ++ "/" ++ encodeName pkg⟩

def librariesIOTarget : MultiEcoSpec :=
  ⟨"libraries-io", "Open the Libraries.io page",
   [("pypi", "pypi"), ("npm", "npm"), ("cargo", "cargo"), ("go", "go")],
   fun ecoPath pkg => "https://libraries.io/" ++ ecoPath ++ "/" ++ encodeName pkg⟩

def depsDevTarget : MultiEcoSpec :=
  ⟨"deps", "Open deps.dev (Google Open Source Insights)",
   [("pypi", "pypi"), ("npm", "npm"), ("cargo", "cargo"), ("go", "go")],
   fun ecoPath pkg => "https://deps.dev/" ++ ecoPath ++ "/" ++ encodeName pkg⟩

def ecosystemsTarget : MultiEcoSpec :=
  ⟨"ecosystems", "Open the ecosyste.ms page",
   [("pypi", "pypi.org"), ("npm", "npmjs.org"), ("cargo", "crates.io"),
    ("go", "proxy.golang.org")],
   fun ecoPath pkg =>
     "https://packages.ecosyste.ms/registries/" ++ ecoPath ++ "/packages/" ++ encodeName pkg⟩

/-- `targets.OriginTarget.get_url` / `targets.UpstreamTarget.get_url`. -/
def remoteBaseGetUrl (remote : String) (d : Directory) : Except OlinkError String :=
  match getParsedRemote d remote with
  | .ok p => .ok p.baseUrl
  | .error e => .error e

/-- `targets.GitPageTarget.get_url`. -/
def gitPageGetUrl (page : String) (d : Directory) : Except OlinkError String :=
  match getParsedRemote d "origin" with
  | .ok p => getPlatformUrl p.baseUrl p.platform page
  | .error e => .error e

def codecovPlatformCodes : List (String × String) :=
  [("github", "gh"), ("gitlab", "gl"), ("bitbucket", "bb")]

/-- `targets.CodecovTarget.get_url`. -/
def codecovGetUrl (d : Directory) : Except OlinkError String :=
  match getParsedRemote d "origin" with
  | .ok p =>
    .ok ("https://codecov.io/" ++ ((codecovPlatformCodes.lookup p.platform).getD p.platform) ++
      "/" ++ quoteNoSafe p.owner ++ "/" ++ quoteNoSafe p.repo)
  | .error e => .error e

/-- `targets.CoverallsTarget.get_url`. -/
def coverallsGetUrl (d : Directory) : Except OlinkError String :=
  match getParsedRemote d "origin" with
  | .ok p =>
    .ok ("https://coveralls.io/" ++ p.platform ++ "/" ++ quoteNoSafe p.owner ++ "/" ++
      quoteNoSafe p.repo)
  | .error e => .error e

/-- The single-ecosystem registry targets: package name of a fixed ecosystem
formatted into a fixed template. -/
def pkgGetUrl (eco : String) (template : String → String) (d : Directory) :
    Except OlinkError String :=
  match getPackageName d eco with
  | .ok n => .ok (template n)
  | .error e => .error e

-- ===========================================================================
-- Target Catalog / Resolution Facade (catalog.py)
-- ===========================================================================

inductive TargetKind where
  | plain (getUrl : Directory → Except OlinkError String)
  | multi (spec : MultiEcoSpec)

structure TargetDef where
  description : String
  kind : TargetKind

def plainDef (description : String) (getUrl : Directory → Except OlinkError String) :
    TargetDef := ⟨description, .plain getUrl⟩

def multiDef (spec : MultiEcoSpec) : TargetDef := ⟨spec.description, .multi spec⟩

/-- `catalog.REGISTRY`, in source order. `PiWheelsTarget` exists in
`targets.py` but is not registered. -/
def REGISTRY : List (String × TargetDef) :=
  [("origin", plainDef "Open the remote origin URL" (remoteBaseGetUrl "origin")),
   ("upstream", plainDef "Open the upstream remote URL" (remoteBaseGetUrl "upstream")),
   ("issues", plainDef "Open the issues page" (gitPageGetUrl "issues")),
   ("pulls", plainDef "Open the pull/merge requests page" (gitPageGetUrl "pulls")),
   ("actions", plainDef "Open the CI/CD page (Actions, Pipelines)" (gitPageGetUrl "actions")),
   ("wiki", plainDef "Open the wiki page" (gitPageGetUrl "wiki")),
   ("releases", plainDef "Open the releases page" (gitPageGetUrl "releases")),
   ("branches", plainDef "Open the branches page" (gitPageGetUrl "branches")),
   ("commits", plainDef "Open the commit history" (gitPageGetUrl "commits")),
   ("security", plainDef "Open the security page" (gitPageGetUrl "security")),
   ("discussions", plainDef "Open the discussions page" (gitPageGetUrl "discussions")),
   ("pypi", plainDef "Open the PyPI page"
     (pkgGetUrl "pypi" (fun n => "https://pypi.org/project/" ++ encodeName n ++ "/"))),
   ("inspector", plainDef "Open the PyPI Inspector page"
     (pkgGetUrl "pypi" (fun n => "https://inspector.pypi.io/project/" ++ encodeName n ++ "/"))),
   ("pypi-json", plainDef "Open the PyPI JSON API"
     (pkgGetUrl "pypi" (fun n => "https://pypi.org/pypi/" ++ encodeName n ++ "/json"))),
   ("pepy", plainDef "Open the PePy download stats"
     (pkgGetUrl "pypi" (fun n => "https://www.pepy.tech/projects/" ++ encodeName n))),
   ("pypistats", plainDef "Open the PyPI Stats page"
     (pkgGetUrl "pypi" (fun n => "https://pypistats.org/packages/" ++ encodeName n))),
   ("piptrends", plainDef "Open the Pip Trends page"
     (pkgGetUrl "pypi" (fun n => "https://piptrends.com/package/" ++ encodeName n))),
   ("clickpy", plainDef "Open the ClickPy stats (ClickHouse)"
     (pkgGetUrl "pypi" (fun n => "https://clickpy.clickhouse.com/dashboard/" ++ encodeName n))),
   ("snyk", multiDef snykTarget),
   ("safety-db", plainDef "Open the Safety DB page"
     (pkgGetUrl "pypi" (fun n => "https://data.safetycli.com/packages/pypi/" ++ encodeName n))),
   ("libraries-io", multiDef librariesIOTarget),
   ("deps", multiDef depsDevTarget),
   ("ecosystems", multiDef ecosystemsTarget),
   ("npm", plainDef "Open the npm page"
     (pkgGetUrl "npm" (fun n => "https://www.npmjs.com/package/" ++ encodeName n))),
   ("bundlephobia", plainDef "Open Bundlephobia (bundle size)"
     (pkgGetUrl "npm" (fun n => "https://bundlephobia.com/package/" ++ encodeName n))),
   ("packagephobia", plainDef "Open Packagephobia (install size)"
     (pkgGetUrl "npm" (fun n => "https://packagephobia.com/result?" ++ urlencode1 "p" n))),
   ("npm-stat", plainDef "Open npm-stat download charts"
     (pkgGetUrl "npm" (fun n => "https://npm-stat.com/charts.html?" ++ urlencode1 "package" n))),
   ("crates", plainDef "Open the crates.io page"
     (pkgGetUrl "cargo" (fun n => "https://crates.io/crates/" ++ encodeName n))),
   ("librs", plainDef "Open lib.rs (alternative crates browser)"
     (pkgGetUrl "cargo" (fun n => "https://lib.rs/crates/" ++ encodeName n))),
   ("gems", plainDef "Open the RubyGems page"
     (pkgGetUrl "gems" (fun n => "https://rubygems.org/gems/" ++ encodeName n))),
   ("packagist", plainDef "Open the Packagist page (PHP)"
     (pkgGetUrl "packagist" (fun n => "https://packagist.org/packages/" ++ encodeName n))),
   ("pub", plainDef "Open the pub.dev page (Dart/Flutter)"
     (pkgGetUrl "pub" (fun n => "https://pub.dev/packages/" ++ encodeName n))),
   ("hex", plainDef "Open the hex.pm page (Elixir)"
     (pkgGetUrl "hex" (fun n => "https://hex.pm/packages/" ++ encodeName n))),
   ("nuget", plainDef "Open the NuGet page (.NET)"
     (pkgGetUrl "nuget" (fun n => "https://www.nuget.org/packages/" ++ encodeName n))),
   ("codecov", plainDef "Open the Codecov page" codecovGetUrl),
   ("coveralls", plainDef "Open the Coveralls page" coverallsGetUrl)]

/-- A target instance as returned by `catalog.get_target`. -/
inductive TargetInstance where
  | plain (getUrl : Directory → Except OlinkError String)
  | multi (spec : MultiEcoSpec) (eco : Option String)

def TargetInstance.getUrl : TargetInstance → Directory → Except OlinkError String
  | .plain f, d => f d
  | .multi s e, d => multiGetUrl s e d

/-- `name.split(":", 1)` when a colon occurs, else the bare name. -/
def splitTargetName (name : String) : String × Option String :=
  match splitFirst ':' name.toList with
  | none => (name, none)
  | some (a, b) => (String.mk a, some (String.mk b))

/-- `catalog.get_target`. -/
def getTarget (name : String) : Except OlinkError TargetInstance :=
  let (baseName, eco) := splitTargetName name
  match REGISTRY.lookup baseName with
  | none =>
    .error (.unknownTarget ("Unknown target: '" ++ baseName ++ "'. Available targets: " ++
      joinComma (sortStrings (REGISTRY.map Prod.fst))))
  | some tdef =>
    match eco with
    | none =>
      match tdef.kind with
      | .plain f => .ok (.plain f)
      | .multi s => .ok (.multi s none)
    | some e =>
      match tdef.kind with
      | .plain _ =>
        .error (.unknownTarget ("Target '" ++ baseName ++
          "' doesn't support ecosystem suffix. Use '" ++ baseName ++ "' without suffix."))
      | .multi s =>
        if (s.ecosystemUrlMap.lookup e).isSome then .ok (.multi s (some e))
        else
          .error (.unknownTarget ("Target '" ++ baseName ++ "' doesn't support ecosystem '" ++
            e ++ "'. Supported: " ++ supportedJoin s))

/-- The facade the CLI uses: `get_target(name).get_url(cwd)`. -/
def resolve (name : String) (d : Directory) : Except OlinkError String :=
  match getTarget name with
  | .ok t => t.getUrl d
  | .error e => .error e

def insertByName (p : String × TargetDef) :
    List (String × TargetDef) → List (String × TargetDef)
  | [] => [p]
  | q :: qs => if stringLt q.1 p.1 then q :: insertByName p qs else p :: q :: qs

/-- `sorted(REGISTRY.items())` (keys are unique, so key order). -/
def sortedRegistry : List (String × TargetDef) :=
  REGISTRY.foldr insertByName []

/-- `catalog.list_targets`. -/
def listTargets : List (String × String) :=
  sortedRegistry.map (fun p => (p.1, p.2.description))

/-- One row of `catalog.list_available_targets`. -/
structure AvailableEntry where
  name : String
  description : String
  ecosystem : Option String
  deriving Repr, DecidableEq

/-- The errors `catalog.UNAVAILABLE_ERRORS` enumerates (`NoRemoteError`,
`NotGitRepoError`, `ProjectMetadataError`, `UnsupportedFeatureError`). -/
def isUnavailableError (e : OlinkError) : Bool :=
  match e with
  | .noRemote _ => true
  | .notGitRepo _ => true
  | .projectMetadata _ => true
  | .unsupportedFeature _ => true
  | _ => false

/-- One speculative probe of `catalog.list_available_targets`: an unavailable
error skips the row, any other error propagates. -/
def probe (url : Except OlinkError String) (row : AvailableEntry)
    (acc : List AvailableEntry) : Except OlinkError (List AvailableEntry) :=
  match url with
  | .ok _ => .ok (acc ++ [row])
  | .error e => if isUnavailableError e then .ok acc else .error e

/-- The inner `for ecosystem in sorted(supported)` loop of
`catalog.list_available_targets`. -/
def probeVariants (d : Directory) (s : MultiEcoSpec) (name desc : String)
    (acc : List AvailableEntry) : List String → Except OlinkError (List AvailableEntry)
  | [] => .ok acc
  | e :: es =>
    match probe (multiGetUrl s (some e) d) ⟨name ++ ":" ++ e, desc, some e⟩ acc with
    | .ok acc2 => probeVariants d s name desc acc2 es
    | .error err => .error err

/-- The loop body of `catalog.list_available_targets` for one registry entry. -/
def listStep (d : Directory) (detected : List String) (acc : List AvailableEntry)
    (entry : String × TargetDef) : Except OlinkError (List AvailableEntry) :=
  match entry.2.kind with
  | .multi s =>
    let supported := detected.filter (fun e => (s.ecosystemUrlMap.lookup e).isSome)
    match supported with
    | [] => .ok acc
    | [e] =>
      probe (multiGetUrl s (some e) d)
        ⟨entry.1, entry.2.description ++ " (" ++ e ++ ")", some e⟩ acc
    | _ => probeVariants d s entry.1 entry.2.description acc (sortStrings supported)
  | .plain f => probe (f d) ⟨entry.1, entry.2.description, none⟩ acc

/-- The `for name, target_cls in sorted(REGISTRY.items())` loop. -/
def availFrom (d : Directory) (detected : List String) (acc : List AvailableEntry) :
    List (String × TargetDef) → Except OlinkError (List AvailableEntry)
  | [] => .ok acc
  | entry :: rest =>
    match listStep d detected acc entry with
    | .ok acc2 => availFrom d detected acc2 rest
    | .error e => .error e

/-- `catalog.list_available_targets`. -/
def listAvailableTargets (d : Directory) : Except OlinkError (List AvailableEntry) :=
  match detectEcosystems d with
  | .error e => .error e
  | .ok detected => availFrom d detected [] sortedRegistry

-- ===========================================================================
-- Spec-side definitions used by the theorems
-- ===========================================================================

/-- "A `.git` entry resolves to a git directory containing a config file":
the configuration that `_read_git_config` would parse, when one exists. -/
def resolvedGitConfig (d : Directory) : Option GitConfig :=
  match getGitDir d with
  | some (some cfg) => some cfg
  | _ => none

/-- The `remote "<name>"` / `url` lookup of `get_remote_url`. -/
def sectionUrlLookup (cfg : GitConfig) (remoteName : String) : Option String :=
  match cfg.sections.lookup ("remote \"" ++ remoteName ++ "\"") with
  | none => none
  | some kvs => kvs.lookup "url"

/-- The ecosystem ids detected in `d` per the spec of `detect`: manifest
present and name extraction succeeding. -/
def detectedSpec (d : Directory) : List String :=
  ECOSYSTEMS.filterMap (fun c =>
    if c.manifestPresent d ∧ (c.extract d).toBool then some c.name else none)

/-- The `(platform, page)` pairs the spec calls explicitly unsupported. -/
def unsupportedPairs : List (String × String) :=
  [("gitlab", "discussions"), ("bitbucket", "security"), ("bitbucket", "discussions")]

def platformNames : List String := ["github", "gitlab", "bitbucket"]

def pageNames : List String :=
  ["issues", "pulls", "actions", "wiki", "releases", "branches", "commits",
   "security", "discussions"]

-- Concrete directories for the closed statements.

/-- A directory with no git repository and no manifests. -/
def emptyDir : Directory :=
  ⟨"/tmp/w", .absent, none, none, none, none, none, none, [], none, none, none, []⟩

/-- Only `pyproject.toml`, with `project.name = "test-project"`. -/
def pyprojectDir : Directory :=
  ⟨"/tmp/w", .absent, none, none, some (.doc (some (.str "test-project"))),
   none, none, none, [], none, none, none, []⟩

/-- `pyproject.toml` (name `alpha`) plus a `*.gemspec` (name `g`): two detected
ecosystems, of which the multi-ecosystem targets support only `pypi`. -/
def pypiGemsDir : Directory :=
  ⟨"/tmp/w", .absent, none, none, some (.doc (some (.str "alpha"))),
   none, none, none, [some "g"], none, none, none, []⟩

/-- `pyproject.toml` (name `a`) plus `package.json` (name `b`). -/
def pypiNpmDir : Directory :=
  ⟨"/tmp/w", .absent, none, none, some (.doc (some (.str "a"))),
   some (.doc (some (.str "b"))), none, none, [], none, none, none, []⟩

/-- A git repository whose `origin` remote points at an unrecognized host. -/
def unknownHostDir : Directory :=
  ⟨"/tmp/w", .directory,
   some ⟨[("remote \"origin\"", [("url", "git@example.com:o/r")])]⟩,
   none, none, none, none, none, [], none, none, none, []⟩

/-- A git repository whose `origin` remote is `git@github.com:testuser/testrepo.git`. -/
def githubDir : Directory :=
  ⟨"/tmp/w", .directory,
   some ⟨[("remote \"origin\"", [("url", "git@github.com:testuser/testrepo.git")])]⟩,
   none, none, none, none, none, [], none, none, none, []⟩

-- ===========================================================================
-- Crash-aware manifest model: the AttributeError path of the structured
-- extractors (decides claim C7)
-- ===========================================================================

/-- An exception escaping the engine: one of the `OlinkError` kinds, or the
`AttributeError` the dict-reading extractors raise when calling `.get` on a
non-dict (`data.get("project", {}).get("name")` with `project` not a table,
`data.get("name")` with a non-dict JSON top level). `AttributeError` is not
an `OlinkError`, so no `except` clause of the engine catches it. -/
inductive PyError where
  | olink (e : OlinkError)
  | attributeError
  deriving Repr, DecidableEq

/-- A TOML/JSON manifest including the state `StructuredFile` cannot
represent: parse succeeded but the relevant table (`project`/`package`) or
the JSON top level is not a dict, on which the extractor crashes with
`AttributeError` instead of raising `ProjectMetadataError`. -/
inductive StructuredFileX where
  | malformed (msg : String)
  | docNonDict
  | doc (nameField : Option PyVal)
  deriving Repr, DecidableEq

/-- The manifests of a directory, for the crash-aware detection model. -/
structure DirectoryX where
  pyprojectToml : Option StructuredFileX
  packageJson : Option StructuredFileX
  cargoToml : Option StructuredFileX
  goMod : Option (Option String)
  gemspecs : List (Option String)
  composerJson : Option StructuredFileX
  pubspecYaml : Option (Option String)
  mixExs : Option (Option String)
  csprojFiles : List CsprojFile
  deriving Repr, DecidableEq

/-- `extractStructuredName` with the crash path: a non-dict container raises
`AttributeError`, every other failure a `ProjectMetadataError`. -/
def extractStructuredNameX (f : Option StructuredFileX) (noFileMsg : String)
    (invalidMsg : String → String) (noNameMsg : String) : Except PyError String :=
  match f with
  | none => .error (.olink (.projectMetadata noFileMsg))
  | some (.malformed e) => .error (.olink (.projectMetadata (invalidMsg e)))
  | some .docNonDict => .error .attributeError
  | some (.doc nameField) =>
    match nameField with
    | some (.str s) =>
      if s = "" then .error (.olink (.projectMetadata noNameMsg)) else .ok s
    | _ => .error (.olink (.projectMetadata noNameMsg))

/-- The regex-based extractors raise only `OlinkError`s; lift them. -/
def liftOlink {α : Type} : Except OlinkError α → Except PyError α
  | .ok a => .ok a
  | .error e => .error (.olink e)

structure EcosystemConfigX where
  name : String
  manifestPresent : DirectoryX → Bool
  extract : DirectoryX → Except PyError String

/-- `project.ECOSYSTEMS` over the crash-aware manifest model, same order. -/
def ECOSYSTEMSX : List EcosystemConfigX :=
  [⟨"pypi", fun d => d.pyprojectToml.isSome, fun d =>
      extractStructuredNameX d.pyprojectToml "No pyproject.toml found"
        (fun e => "Invalid pyproject.toml: " ++ e) "No 'project.name' in pyproject.toml"⟩,
   ⟨"npm", fun d => d.packageJson.isSome, fun d =>
      extractStructuredNameX d.packageJson "No package.json found"
        (fun e => "Invalid package.json: " ++ e) "No 'name' in package.json"⟩,
   ⟨"cargo", fun d => d.cargoToml.isSome, fun d =>
      extractStructuredNameX d.cargoToml "No Cargo.toml found"
        (fun e => "Invalid Cargo.toml: " ++ e) "No 'package.name' in Cargo.toml"⟩,
   ⟨"go", fun d => d.goMod.isSome, fun d =>
      liftOlink (lineExtract d.goMod "No go.mod found"
        "No 'module' declaration in go.mod")⟩,
   ⟨"gems", fun d => !d.gemspecs.isEmpty, fun d =>
      liftOlink (lineExtract d.gemspecs.head? "No .gemspec file found"
        "No 'name' in .gemspec file")⟩,
   ⟨"packagist", fun d => d.composerJson.isSome, fun d =>
      extractStructuredNameX d.composerJson "No composer.json found"
        (fun e => "Invalid composer.json: " ++ e) "No 'name' in composer.json"⟩,
   ⟨"pub", fun d => d.pubspecYaml.isSome, fun d =>
      liftOlink (lineExtract d.pubspecYaml "No pubspec.yaml found"
        "No 'name' in pubspec.yaml")⟩,
   ⟨"hex", fun d => d.mixExs.isSome, fun d =>
      liftOlink (lineExtract d.mixExs "No mix.exs found" "No 'app' in mix.exs")⟩,
   ⟨"nuget", fun d => !d.csprojFiles.isEmpty, fun d =>
      liftOlink (match d.csprojFiles with
        | [] => .error (.projectMetadata "No .csproj file found")
        | f :: _ =>
          match f.packageId with
          | some pid => .ok pid
          | none => .ok f.stem)⟩]

/-- The loop of `detect_ecosystems` with the crash path: the `except` clause
catches only `ProjectMetadataError`; an `AttributeError` propagates and the
ecosystems not yet probed are never reported. -/
def detectFromX (d : DirectoryX) : List EcosystemConfigX → Except PyError (List String)
  | [] => .ok []
  | c :: rest =>
    if c.manifestPresent d then
      match c.extract d with
      | .ok _ =>
        match detectFromX d rest with
        | .ok l => .ok (c.name :: l)
        | .error e => .error e
      | .error (.olink e) =>
        if e.kind = .projectMetadata then detectFromX d rest else .error (.olink e)
      | .error .attributeError => .error .attributeError
    else detectFromX d rest

/-- `project.detect_ecosystems` over the crash-aware model. -/
def detectEcosystemsX (d : DirectoryX) : Except PyError (List String) :=
  detectFromX d ECOSYSTEMSX

/-- A `pyproject.toml` that is valid TOML with `project = "x"` (the `project`
entry not a table), next to a valid `package.json` named `b`. -/
def crashDirX : DirectoryX :=
  ⟨some .docNonDict, some (.doc (some (.str "b"))), none, none, [], none, none,
   none, []⟩

/-- The same directory without the broken `pyproject.toml`. -/
def npmOnlyDirX : DirectoryX :=
  ⟨none, some (.doc (some (.str "b"))), none, none, [], none, none, none, []⟩

-- ===========================================================================
-- Helper lemmas: splitFirst and stripDotGit
-- ===========================================================================

theorem splitFirst_eq_some {c : Char} :
    ∀ {l a b : List Char}, splitFirst c l = some (a, b) → c ∉ a ∧ l = a ++ c :: b := by
  intro l
  induction l with
  | nil => intro a b h; simp [splitFirst] at h
  | cons x xs ih =>
    intro a b h
    by_cases hx : x = c
    · simp [splitFirst, hx] at h
      obtain ⟨ha, hb⟩ := h
      subst ha; subst hb; subst hx
      simp
    · simp [splitFirst, hx] at h
      rcases h' : splitFirst c xs with _ | ⟨a', b'⟩
      · rw [h'] at h; simp at h
      · rw [h'] at h
        simp at h
        obtain ⟨ha, hb⟩ := h
        obtain ⟨hc, hl⟩ := ih h'
        subst hb
        constructor
        · intro hmem
          rw [← ha] at hmem
          rcases List.mem_cons.mp hmem with h1 | h2
          · exact hx h1.symm
          · exact hc h2
        · rw [← ha, hl]; rfl

theorem splitFirst_append {c : Char} :
    ∀ {a : List Char} (b : List Char), c ∉ a → splitFirst c (a ++ c :: b) = some (a, b) := by
  intro a
  induction a with
  | nil => intro b _; simp [splitFirst]
  | cons x xs ih =>
    intro b hen
    have hx : x ≠ c := fun h => hen (h ▸ List.mem_cons_self x xs)
    have hxs : c ∉ xs := fun h => hen (List.mem_cons_of_mem x h)
    simp only [List.cons_append, splitFirst, if_neg hx]
    rw [show xs.append (c :: b) = xs ++ c :: b from rfl, ih b hxs]

theorem stripDotGit_strip {seg : List Char} (h : seg ≠ []) :
    stripDotGit (seg ++ dotGitChars) = seg := by
  have hlen : (seg ++ dotGitChars).length = seg.length + 4 := by
    simp [dotGitChars]
  have h4 : 4 < (seg ++ dotGitChars).length := by
    rw [hlen]
    have : 0 < seg.length := List.length_pos.mpr h
    omega
  have hsuf : dotGitChars <:+ seg ++ dotGitChars := List.suffix_append seg dotGitChars
  unfold stripDotGit
  rw [if_pos ⟨h4, hsuf⟩, hlen]
  have : seg.length + 4 - 4 = seg.length := by omega
  rw [this, List.take_left]

theorem stripDotGit_id {seg : List Char} (h : ¬ dotGitChars <:+ seg) :
    stripDotGit seg = seg := by
  unfold stripDotGit
  rw [if_neg]
  intro ⟨_, hs⟩
  exact h hs

/-- If the stripped segment still ends in `.git`, the segment ended in
`.git.git`, or was exactly `.git`. -/
theorem stripDotGit_dotGit_suffix {seg : List Char}
    (h : dotGitChars <:+ stripDotGit seg) :
    dotGitChars ++ dotGitChars <:+ seg ∨ seg = dotGitChars := by
  unfold stripDotGit at h
  by_cases hc : 4 < seg.length ∧ dotGitChars <:+ seg
  · rw [if_pos hc] at h
    obtain ⟨pre, hpre⟩ := hc.2
    have hlen2 : (pre ++ dotGitChars).length - 4 = pre.length := by
      simp [dotGitChars]
    rw [← hpre, hlen2, List.take_left] at h
    obtain ⟨q, hq⟩ := h
    left
    refine ⟨q, ?_⟩
    rw [← hpre, ← hq, List.append_assoc]
  · rw [if_neg hc] at h
    right
    push_neg at hc
    have hle : ¬ 4 < seg.length := fun h4 => hc h4 h
    have hge : dotGitChars.length ≤ seg.length := h.length_le
    have hdg : dotGitChars.length = 4 := by simp [dotGitChars]
    exact (h.eq_of_length (by omega)).symm

-- ===========================================================================
-- Helper lemmas: the three pattern matchers
-- ===========================================================================

theorem matchOwnerRepo_build {owner : List Char} (seg : List Char)
    (ho : owner ≠ []) (hoc : '/' ∉ owner) (hs : seg ≠ []) :
    matchOwnerRepo (owner ++ '/' :: seg) = some (owner, stripDotGit seg) := by
  unfold matchOwnerRepo
  rw [splitFirst_append seg hoc]
  simp [ho, hs]

theorem matchSSH_build {host owner : List Char} (seg : List Char)
    (hh : host ≠ []) (hhc : ':' ∉ host) (ho : owner ≠ []) (hoc : '/' ∉ owner)
    (hs : seg ≠ []) :
    matchSSH (['g', 'i', 't', '@'] ++ (host ++ ':' :: (owner ++ '/' :: seg))) =
      some (host, owner, stripDotGit seg) := by
  unfold matchSSH
  rw [if_pos (List.prefix_append _ _),
    List.drop_left' (show ([ 'g', 'i', 't', '@'] : List Char).length = 4 from rfl),
    splitFirst_append _ hhc]
  simp only [matchOwnerRepo_build seg ho hoc hs]
  simp [hh]

theorem matchHostOwnerRepo_build {host owner : List Char} (seg : List Char)
    (hh : host ≠ []) (hhs : '/' ∉ host) (ho : owner ≠ []) (hoc : '/' ∉ owner)
    (hs : seg ≠ []) :
    matchHostOwnerRepo (host ++ '/' :: (owner ++ '/' :: seg)) =
      some (host, owner, stripDotGit seg) := by
  unfold matchHostOwnerRepo
  rw [splitFirst_append _ hhs]
  simp only [matchOwnerRepo_build seg ho hoc hs]
  simp [hh]

theorem matchHTTPS_build (rest : List Char) :
    matchHTTPS (['h', 't', 't', 'p', 's', ':', '/', '/'] ++ rest) =
      matchHostOwnerRepo rest := by
  unfold matchHTTPS
  rw [if_pos (List.prefix_append _ _),
    List.drop_left' (show (['h', 't', 't', 'p', 's', ':', '/', '/'] : List Char).length = 8
      from rfl)]

theorem matchGIT_build (rest : List Char) :
    matchGIT (['g', 'i', 't', ':', '/', '/'] ++ rest) = matchHostOwnerRepo rest := by
  unfold matchGIT
  rw [if_pos (List.prefix_append _ _),
    List.drop_left' (show (['g', 'i', 't', ':', '/', '/'] : List Char).length = 6 from rfl)]

theorem not_prefix_head {a b : Char} {l₁ l₂ : List Char} (h : a ≠ b) :
    ¬ (a :: l₁ <+: b :: l₂) :=
  fun hp => h (List.cons_prefix_cons.mp hp).1

theorem matchSSH_https_none (rest : List Char) :
    matchSSH (['h', 't', 't', 'p', 's', ':', '/', '/'] ++ rest) = none := by
  unfold matchSSH
  simp only [List.cons_append, List.nil_append]
  rw [if_neg (not_prefix_head (by decide))]

theorem matchSSH_git_none (rest : List Char) :
    matchSSH (['g', 'i', 't', ':', '/', '/'] ++ rest) = none := by
  unfold matchSSH
  rw [if_neg]
  intro h
  simp only [List.cons_append, List.nil_append, List.cons_prefix_cons] at h
  exact absurd h.2.2.2.1 (by decide)

theorem matchHTTPS_git_none (rest : List Char) :
    matchHTTPS (['g', 'i', 't', ':', '/', '/'] ++ rest) = none := by
  unfold matchHTTPS
  simp only [List.cons_append, List.nil_append]
  rw [if_neg (not_prefix_head (by decide)), if_neg (not_prefix_head (by decide))]

theorem matchOwnerRepo_inv {l o r : List Char} (h : matchOwnerRepo l = some (o, r)) :
    ∃ seg, seg ≠ [] ∧ r = stripDotGit seg ∧ seg <:+ l := by
  unfold matchOwnerRepo at h
  split at h
  · exact absurd h (by simp)
  next owner rest hs =>
    split at h
    · exact absurd h (by simp)
    split at h
    · exact absurd h (by simp)
    next h1 h2 =>
      simp only [Option.some.injEq, Prod.mk.injEq] at h
      refine ⟨rest, h2, h.2.symm, ?_⟩
      obtain ⟨-, hl⟩ := splitFirst_eq_some hs
      rw [hl]
      exact (List.suffix_cons '/' rest).trans (List.suffix_append owner _)

theorem matchSSH_inv {l h o r : List Char} (hm : matchSSH l = some (h, o, r)) :
    ∃ seg, seg ≠ [] ∧ r = stripDotGit seg ∧ seg <:+ l := by
  unfold matchSSH at hm
  split at hm
  case isFalse => exact absurd hm (by simp)
  case isTrue hp =>
    split at hm
    · exact absurd hm (by simp)
    next host rest hs =>
      split at hm
      · exact absurd hm (by simp)
      next h1 =>
        split at hm
        · exact absurd hm (by simp)
        next owner repo hmr =>
          simp only [Option.some.injEq, Prod.mk.injEq] at hm
          obtain ⟨seg, hne, hstrip, hsuf⟩ := matchOwnerRepo_inv hmr
          refine ⟨seg, hne, hm.2.2 ▸ hstrip, ?_⟩
          obtain ⟨-, hl⟩ := splitFirst_eq_some hs
          have h2 : seg <:+ l.drop 4 := by
            rw [hl]
            exact (hsuf.trans (List.suffix_cons ':' rest)).trans
              (List.suffix_append host _)
          exact h2.trans (List.drop_suffix 4 l)

theorem matchHostOwnerRepo_inv {l h o r : List Char}
    (hm : matchHostOwnerRepo l = some (h, o, r)) :
    ∃ seg, seg ≠ [] ∧ r = stripDotGit seg ∧ seg <:+ l := by
  unfold matchHostOwnerRepo at hm
  split at hm
  · exact absurd hm (by simp)
  next host rest hs =>
    split at hm
    · exact absurd hm (by simp)
    next h1 =>
      split at hm
      · exact absurd hm (by simp)
      next owner repo hmr =>
        simp only [Option.some.injEq, Prod.mk.injEq] at hm
        obtain ⟨seg, hne, hstrip, hsuf⟩ := matchOwnerRepo_inv hmr
        refine ⟨seg, hne, hm.2.2 ▸ hstrip, ?_⟩
        obtain ⟨-, hl⟩ := splitFirst_eq_some hs
        rw [hl]
        exact (hsuf.trans (List.suffix_cons '/' rest)).trans (List.suffix_append host _)

theorem matchHTTPS_inv {l h o r : List Char} (hm : matchHTTPS l = some (h, o, r)) :
    ∃ seg, seg ≠ [] ∧ r = stripDotGit seg ∧ seg <:+ l := by
  unfold matchHTTPS at hm
  split at hm
  · obtain ⟨seg, hne, hstrip, hsuf⟩ := matchHostOwnerRepo_inv hm
    exact ⟨seg, hne, hstrip, hsuf.trans (List.drop_suffix 8 l)⟩
  split at hm
  · obtain ⟨seg, hne, hstrip, hsuf⟩ := matchHostOwnerRepo_inv hm
    exact ⟨seg, hne, hstrip, hsuf.trans (List.drop_suffix 7 l)⟩
  · exact absurd hm (by simp)

theorem matchGIT_inv {l h o r : List Char} (hm : matchGIT l = some (h, o, r)) :
    ∃ seg, seg ≠ [] ∧ r = stripDotGit seg ∧ seg <:+ l := by
  unfold matchGIT at hm
  split at hm
  · obtain ⟨seg, hne, hstrip, hsuf⟩ := matchHostOwnerRepo_inv hm
    exact ⟨seg, hne, hstrip, hsuf.trans (List.drop_suffix 6 l)⟩
  · exact absurd hm (by simp)

/-- Every accepted remote URL's repo is a once-`.git`-stripped nonempty suffix
of the URL. -/
theorem parseRemoteUrl_inv {url : String} {pr : ParsedRemote}
    (hp : parseRemoteUrl url = .ok pr) :
    ∃ seg, seg ≠ [] ∧ pr.repo.data = stripDotGit seg ∧ seg <:+ url.data := by
  unfold parseRemoteUrl at hp
  rcases hor : (matchSSH url.toList <|> matchHTTPS url.toList <|> matchGIT url.toList) with
    _ | ⟨h, o, r⟩ <;> rw [hor] at hp
  · simp at hp
  · dsimp only at hp
    have hrepo : pr.repo.data = r := by
      rcases hpe : platformOf h with p | e <;> rw [hpe] at hp
      · simp at hp
      · simp only [Except.ok.injEq] at hp
        rw [← hp]
    have : matchSSH url.toList = some (h, o, r) ∨ matchHTTPS url.toList = some (h, o, r) ∨
        matchGIT url.toList = some (h, o, r) := by
      rcases h1 : matchSSH url.toList with _ | v
      · rcases h2 : matchHTTPS url.toList with _ | v
        · rw [h1, h2] at hor; simp at hor; right; right; exact hor
        · rw [h1, h2] at hor; simp at hor; right; left; rw [hor]
      · rw [h1] at hor; simp at hor; left; rw [hor]
    rcases this with hm | hm | hm
    · obtain ⟨seg, hne, hstrip, hsuf⟩ := matchSSH_inv hm
      exact ⟨seg, hne, hrepo ▸ hstrip, hsuf⟩
    · obtain ⟨seg, hne, hstrip, hsuf⟩ := matchHTTPS_inv hm
      exact ⟨seg, hne, hrepo ▸ hstrip, hsuf⟩
    · obtain ⟨seg, hne, hstrip, hsuf⟩ := matchGIT_inv hm
      exact ⟨seg, hne, hrepo ▸ hstrip, hsuf⟩

-- ===========================================================================
-- Helper lemmas: joinComma, sortStrings, extraction errors, detection
-- ===========================================================================

theorem mem_joinComma {e : String} :
    ∀ {l : List String}, e ∈ l → e.data <:+: (joinComma l).data := by
  intro l
  induction l with
  | nil => intro h; simp at h
  | cons x xs ih =>
    intro h
    rcases xs with _ | ⟨y, ys⟩
    · rw [List.mem_singleton] at h
      subst h
      exact List.infix_refl _
    · rcases List.mem_cons.mp h with h1 | h2
      · subst h1
        show e.data <:+: (e ++ ", " ++ joinComma (y :: ys)).data
        rw [String.data_append, String.data_append, List.append_assoc]
        exact (List.prefix_append e.data _).isInfix
      · have hin := ih h2
        show e.data <:+: (x ++ ", " ++ joinComma (y :: ys)).data
        rw [String.data_append]
        exact hin.trans (List.suffix_append _ _).isInfix

theorem mem_insertSorted {a s : String} :
    ∀ {l : List String}, a ∈ insertSorted s l ↔ a = s ∨ a ∈ l := by
  intro l
  induction l with
  | nil => simp [insertSorted]
  | cons x xs ih =>
    by_cases hx : stringLt x s = true
    · simp only [insertSorted, if_pos hx, List.mem_cons, ih]
      tauto
    · simp only [insertSorted, if_neg hx, List.mem_cons]

theorem mem_sortStrings {a : String} :
    ∀ {l : List String}, a ∈ sortStrings l ↔ a ∈ l := by
  intro l
  induction l with
  | nil => simp [sortStrings]
  | cons x xs ih =>
    show a ∈ insertSorted x (sortStrings xs) ↔ _
    simp [mem_insertSorted, ih]

theorem extractStructuredName_err {f : Option StructuredFile} {m1 : String}
    {m2 : String → String} {m3 : String} {e : OlinkError}
    (h : extractStructuredName f m1 m2 m3 = .error e) : e.kind = .projectMetadata := by
  rcases f with _ | f'
  · simp only [extractStructuredName, Except.error.injEq] at h
    rw [← h]; rfl
  · rcases f' with msg | nf
    · simp only [extractStructuredName, Except.error.injEq] at h
      rw [← h]; rfl
    · rcases nf with _ | pv
      · simp only [extractStructuredName, Except.error.injEq] at h
        rw [← h]; rfl
      · rcases pv with s | _
        · by_cases hs : s = ""
          · simp only [extractStructuredName, if_pos hs, Except.error.injEq] at h
            rw [← h]; rfl
          · simp only [extractStructuredName, if_neg hs] at h
            exact absurd h (by simp)
        · simp only [extractStructuredName, Except.error.injEq] at h
          rw [← h]; rfl

theorem lineExtract_err {v : Option (Option String)} {mA mB : String} {e : OlinkError}
    (h : lineExtract v mA mB = .error e) : e.kind = .projectMetadata := by
  rcases v with _ | m
  · simp only [lineExtract, Except.error.injEq] at h
    rw [← h]; rfl
  · rcases m with _ | n
    · simp only [lineExtract, Except.error.injEq] at h
      rw [← h]; rfl
    · exact absurd h (by simp [lineExtract])

theorem getNugetName_err {d : Directory} {e : OlinkError}
    (h : getNugetName d = .error e) : e.kind = .projectMetadata := by
  unfold getNugetName at h
  rcases hd : d.csprojFiles with _ | ⟨f, fs⟩ <;> rw [hd] at h
  · simp only [Except.error.injEq] at h
    rw [← h]; rfl
  · rcases hp : f.packageId with _ | pid <;> simp only [hp] at h <;>
      exact absurd h (by simp)

/-- Every extractor of the ecosystem registry fails only with
`ProjectMetadataError` (the kind `detect_ecosystems` catches). -/
theorem ecosystems_extract_err {c : EcosystemConfig} (hc : c ∈ ECOSYSTEMS)
    {d : Directory} {e : OlinkError} (h : c.extract d = .error e) :
    e.kind = .projectMetadata := by
  simp only [ECOSYSTEMS, List.mem_cons, List.not_mem_nil, or_false] at hc
  rcases hc with rfl | rfl | rfl | rfl | rfl | rfl | rfl | rfl | rfl
  · exact extractStructuredName_err h
  · exact extractStructuredName_err h
  · exact extractStructuredName_err h
  · exact lineExtract_err h
  · exact lineExtract_err h
  · exact extractStructuredName_err h
  · exact lineExtract_err h
  · exact lineExtract_err h
  · exact getNugetName_err h

theorem detectFrom_cons (d : Directory) (c : EcosystemConfig)
    (rest : List EcosystemConfig) :
    detectFrom d (c :: rest) =
      if c.manifestPresent d then
        match c.extract d with
        | .ok _ =>
          match detectFrom d rest with
          | .ok l => .ok (c.name :: l)
          | .error e => .error e
        | .error e => if e.kind = .projectMetadata then detectFrom d rest else .error e
      else detectFrom d rest := rfl

/-- The loop of `detect_ecosystems` never raises when every extractor fails
only with `ProjectMetadataError`, and collects exactly the present-and-parsable
ecosystems in order. -/
theorem detectFrom_eq {d : Directory} :
    ∀ {cs : List EcosystemConfig},
      (∀ c ∈ cs, ∀ e : OlinkError, c.extract d = .error e → e.kind = .projectMetadata) →
      detectFrom d cs = .ok (cs.filterMap (fun c =>
        if c.manifestPresent d ∧ (c.extract d).toBool then some c.name else none)) := by
  intro cs
  induction cs with
  | nil => intro _; rfl
  | cons c rest ih =>
    intro hk
    have hrest := ih (fun c' hc' => hk c' (List.mem_cons_of_mem _ hc'))
    by_cases hm : c.manifestPresent d
    · rcases hx : c.extract d with e | v
      · have hkind : e.kind = .projectMetadata := hk c (List.mem_cons_self _ _) e hx
        have hfm : List.filterMap (fun c =>
            if c.manifestPresent d ∧ (c.extract d).toBool then some c.name else none)
            (c :: rest) = List.filterMap (fun c =>
            if c.manifestPresent d ∧ (c.extract d).toBool then some c.name else none)
            rest := by
          simp only [List.filterMap_cons, hx]
          simp [Except.toBool]
        rw [detectFrom_cons, if_pos hm, hx]
        show (if e.kind = ErrKind.projectMetadata then detectFrom d rest
          else Except.error e) = _
        rw [if_pos hkind, hrest, hfm]
      · have hfm : List.filterMap (fun c =>
            if c.manifestPresent d ∧ (c.extract d).toBool then some c.name else none)
            (c :: rest) = c.name :: List.filterMap (fun c =>
            if c.manifestPresent d ∧ (c.extract d).toBool then some c.name else none)
            rest := by
          simp only [List.filterMap_cons, hx]
          simp [Except.toBool, hm]
        rw [detectFrom_cons, if_pos hm, hx]
        show (match detectFrom d rest with
          | .ok l => Except.ok (c.name :: l)
          | .error e => Except.error e) = _
        rw [hrest, hfm]
    · have hfm : List.filterMap (fun c =>
          if c.manifestPresent d ∧ (c.extract d).toBool then some c.name else none)
          (c :: rest) = List.filterMap (fun c =>
          if c.manifestPresent d ∧ (c.extract d).toBool then some c.name else none)
          rest := by
        simp only [List.filterMap_cons]
        simp [hm]
      rw [detectFrom_cons, if_neg hm, hrest, hfm]

/-- `detect_ecosystems` never raises: its result is exactly the list of
ecosystem ids whose manifest is present and whose extraction succeeds. -/
theorem detectEcosystems_eq (d : Directory) :
    detectEcosystems d = .ok (detectedSpec d) :=
  detectFrom_eq (fun _ hc _ h => ecosystems_extract_err hc h)

-- ===========================================================================
-- Helper lemmas: list-available probing only surfaces non-unavailable errors
-- ===========================================================================

theorem probe_error {url : Except OlinkError String} {row : AvailableEntry}
    {acc : List AvailableEntry} {e : OlinkError}
    (h : probe url row acc = .error e) : isUnavailableError e = false := by
  rcases url with err | u
  · simp only [probe] at h
    by_cases hu : isUnavailableError err = true
    · rw [if_pos hu] at h
      exact absurd h (by simp)
    · rw [if_neg hu] at h
      simp only [Except.error.injEq] at h
      rw [← h]
      simpa using hu
  · simp [probe] at h

theorem probeVariants_error {d : Directory} {s : MultiEcoSpec} {name desc : String} :
    ∀ {es : List String} {acc : List AvailableEntry} {e : OlinkError},
      probeVariants d s name desc acc es = .error e → isUnavailableError e = false := by
  intro es
  induction es with
  | nil => intro acc e h; exact absurd h (by simp [probeVariants])
  | cons x xs ih =>
    intro acc e h
    unfold probeVariants at h
    rcases hp : probe (multiGetUrl s (some x) d) ⟨name ++ ":" ++ x, desc, some x⟩ acc
      with err | acc2 <;> rw [hp] at h <;> dsimp only at h
    · simp only [Except.error.injEq] at h
      exact h ▸ probe_error hp
    · exact ih h

theorem listStep_error {d : Directory} {detected : List String}
    {acc : List AvailableEntry} {entry : String × TargetDef} {e : OlinkError}
    (h : listStep d detected acc entry = .error e) : isUnavailableError e = false := by
  unfold listStep at h
  rcases hk : entry.2.kind with f | s <;> rw [hk] at h <;> dsimp only at h
  · exact probe_error h
  · rcases hsup : List.filter (fun e => (List.lookup e s.ecosystemUrlMap).isSome) detected
      with _ | ⟨x, xs⟩ <;> rw [hsup] at h
    · exact absurd h (by simp)
    · rcases xs with _ | ⟨y, ys⟩ <;> dsimp only at h
      · exact probe_error h
      · exact probeVariants_error h

theorem availFrom_error {d : Directory} {detected : List String} :
    ∀ {entries : List (String × TargetDef)} {acc : List AvailableEntry} {e : OlinkError},
      availFrom d detected acc entries = .error e → isUnavailableError e = false := by
  intro entries
  induction entries with
  | nil => intro acc e h; exact absurd h (by simp [availFrom])
  | cons entry rest ih =>
    intro acc e h
    unfold availFrom at h
    rcases hs : listStep d detected acc entry with err | acc2 <;> rw [hs] at h <;>
      dsimp only at h
    · simp only [Except.error.injEq] at h
      exact h ▸ listStep_error hs
    · exact ih h

-- ===========================================================================
-- Helper lemmas: target-name splitting
-- ===========================================================================

theorem splitTargetName_append {pre post : String} (h : ':' ∉ pre.data) :
    splitTargetName (pre ++ ":" ++ post) = (pre, some post) := by
  unfold splitTargetName
  have hdata : (pre ++ ":" ++ post).toList = pre.data ++ ':' :: post.data := by
    show (pre ++ ":" ++ post).data = _
    rw [String.data_append, String.data_append, List.append_assoc]
    rfl
  rw [hdata, splitFirst_append _ h]

theorem splitTargetName_nocolon {name : String} (h : ':' ∉ name.data) :
    splitTargetName name = (name, none) := by
  unfold splitTargetName
  rcases hs : splitFirst ':' name.toList with _ | ⟨a, b⟩
  · rfl
  · obtain ⟨-, hl⟩ := splitFirst_eq_some hs
    have hmem : ':' ∈ name.data := by
      show ':' ∈ name.toList
      rw [hl]
      exact List.mem_append_right a (List.mem_cons_self ':' b)
    exact absurd hmem h

-- ===========================================================================
-- Helper lemmas: parseRemoteUrl on the three well-formed URL shapes
-- ===========================================================================

theorem orElse3_first {α : Type} {a b c : Option α} {v : α} (h : a = some v) :
    (a <|> b <|> c) = some v := by rw [h]; rfl

theorem orElse3_second {α : Type} {a b c : Option α} {v : α} (ha : a = none)
    (hb : b = some v) : (a <|> b <|> c) = some v := by rw [ha, hb]; rfl

theorem orElse3_third {α : Type} {a b c : Option α} (ha : a = none) (hb : b = none) :
    (a <|> b <|> c) = c := by rw [ha, hb]; rfl

theorem data_ne_nil {s : String} (h : s ≠ "") : s.data ≠ [] := by
  cases s; simp_all [String.ext_iff]

theorem parse_ssh_eq {host owner p : String} (seg : List Char) (url : String)
    (hh : host ≠ "") (ho : owner ≠ "") (hsg : seg ≠ [])
    (hhc : ':' ∉ host.data) (hoc : '/' ∉ owner.data)
    (hplat : platformOf host.data = .ok p)
    (hurl : url.toList = ['g', 'i', 't', '@'] ++
      (host.data ++ ':' :: (owner.data ++ '/' :: seg))) :
    parseRemoteUrl url = .ok ⟨p, host, owner, String.mk (stripDotGit seg)⟩ := by
  have hms : matchSSH url.toList = some (host.data, owner.data, stripDotGit seg) := by
    rw [hurl, matchSSH_build seg (data_ne_nil hh) hhc (data_ne_nil ho) hoc hsg]
  unfold parseRemoteUrl
  rw [orElse3_first hms]
  dsimp only
  rw [hplat]

theorem parse_https_eq {host owner p : String} (seg : List Char) (url : String)
    (hh : host ≠ "") (ho : owner ≠ "") (hsg : seg ≠ [])
    (hhs : '/' ∉ host.data) (hoc : '/' ∉ owner.data)
    (hplat : platformOf host.data = .ok p)
    (hurl : url.toList = ['h', 't', 't', 'p', 's', ':', '/', '/'] ++
      (host.data ++ '/' :: (owner.data ++ '/' :: seg))) :
    parseRemoteUrl url = .ok ⟨p, host, owner, String.mk (stripDotGit seg)⟩ := by
  have hmh : matchHTTPS url.toList = some (host.data, owner.data, stripDotGit seg) := by
    rw [hurl, matchHTTPS_build,
      matchHostOwnerRepo_build seg (data_ne_nil hh) hhs (data_ne_nil ho) hoc hsg]
  have hmn : matchSSH url.toList = none := by rw [hurl, matchSSH_https_none]
  unfold parseRemoteUrl
  rw [orElse3_second hmn hmh]
  dsimp only
  rw [hplat]

theorem parse_git_eq {host owner p : String} (seg : List Char) (url : String)
    (hh : host ≠ "") (ho : owner ≠ "") (hsg : seg ≠ [])
    (hhs : '/' ∉ host.data) (hoc : '/' ∉ owner.data)
    (hplat : platformOf host.data = .ok p)
    (hurl : url.toList = ['g', 'i', 't', ':', '/', '/'] ++
      (host.data ++ '/' :: (owner.data ++ '/' :: seg))) :
    parseRemoteUrl url = .ok ⟨p, host, owner, String.mk (stripDotGit seg)⟩ := by
  have hmg : matchGIT url.toList = some (host.data, owner.data, stripDotGit seg) := by
    rw [hurl, matchGIT_build,
      matchHostOwnerRepo_build seg (data_ne_nil hh) hhs (data_ne_nil ho) hoc hsg]
  have hmn : matchSSH url.toList = none := by rw [hurl, matchSSH_git_none]
  have hmn2 : matchHTTPS url.toList = none := by rw [hurl, matchHTTPS_git_none]
  unfold parseRemoteUrl
  rw [orElse3_third hmn hmn2, hmg]
  dsimp only
  rw [hplat]

-- ===========================================================================
-- Claim theorems
-- ===========================================================================

/-- C4 counterexample to the unrestricted claim: with host `github.com/x`
(owner `o`, repo `r`) the SSH-shorthand and HTTPS forms BOTH parse
successfully — the SSH host pattern `[^:]+` admits slashes while the HTTPS
host pattern `[^/]+` splits at the first one — yet they yield different
`ParsedRemote` values, so "all yield the identical ParsedRemote whenever any
of them parses successfully" fails for degenerate components. -/
theorem c4_counterexample :
    parseRemoteUrl ("git@" ++ "github.com/x" ++ ":" ++ "o" ++ "/" ++ "r") =
      .ok ⟨"github", "github.com/x", "o", "r"⟩ ∧
    parseRemoteUrl ("https://" ++ "github.com/x" ++ "/" ++ "o" ++ "/" ++ "r") =
      .ok ⟨"github", "github.com", "x", "o/r"⟩ ∧
    ParsedRemote.mk "github" "github.com/x" "o" "r" ≠
      ParsedRemote.mk "github" "github.com" "x" "o/r" := by
  refine ⟨?_, ?_, ?_⟩
  · decide
  · decide
  · decide

/-- C4 amended: restricted to well-formed components (nonempty
host/owner/repo, no `:` or `/` inside the host, no `/` inside the owner, repo
not already ending in `.git`, host resolving to a platform — the spec's
"equivalent inputs"), the SSH shorthand, HTTPS and git-protocol forms, each
with or without a trailing `.git`, all parse to the identical
`ParsedRemote`. -/
theorem c4_parse_shapes_agree :
    ∀ host owner repo p : String,
      host ≠ "" → owner ≠ "" → repo ≠ "" →
      ':' ∉ host.data → '/' ∉ host.data → '/' ∉ owner.data →
      ¬ (dotGitChars <:+ repo.data) →
      platformOf host.data = .ok p →
      (parseRemoteUrl ("git@" ++ host ++ ":" ++ owner ++ "/" ++ repo) =
          .ok ⟨p, host, owner, repo⟩ ∧
        parseRemoteUrl ("git@" ++ host ++ ":" ++ owner ++ "/" ++ repo ++ ".git") =
          .ok ⟨p, host, owner, repo⟩) ∧
      (parseRemoteUrl ("https://" ++ host ++ "/" ++ owner ++ "/" ++ repo) =
          .ok ⟨p, host, owner, repo⟩ ∧
        parseRemoteUrl ("https://" ++ host ++ "/" ++ owner ++ "/" ++ repo ++ ".git") =
          .ok ⟨p, host, owner, repo⟩) ∧
      (parseRemoteUrl ("git://" ++ host ++ "/" ++ owner ++ "/" ++ repo) =
          .ok ⟨p, host, owner, repo⟩ ∧
        parseRemoteUrl ("git://" ++ host ++ "/" ++ owner ++ "/" ++ repo ++ ".git") =
          .ok ⟨p, host, owner, repo⟩) := by
  intro host owner repo p hh ho hr hhc hhs hoc hng hplat
  have hrn : repo.data ≠ [] := data_ne_nil hr
  have hsegne : repo.data ++ dotGitChars ≠ [] := by simp [dotGitChars]
  have hrepo : String.mk (stripDotGit repo.data) = repo := by rw [stripDotGit_id hng]
  have hrepo2 : String.mk (stripDotGit (repo.data ++ dotGitChars)) = repo := by
    rw [stripDotGit_strip hrn]
  refine ⟨⟨?_, ?_⟩, ⟨?_, ?_⟩, ⟨?_, ?_⟩⟩
  · have hl : ("git@" ++ host ++ ":" ++ owner ++ "/" ++ repo).toList =
        ['g', 'i', 't', '@'] ++ (host.data ++ ':' :: (owner.data ++ '/' :: repo.data)) := by
      show ("git@" ++ host ++ ":" ++ owner ++ "/" ++ repo).data = _
      simp only [String.data_append, List.append_assoc]
      rfl
    rw [parse_ssh_eq repo.data _ hh ho hrn hhc hoc hplat hl, hrepo]
  · have hl : ("git@" ++ host ++ ":" ++ owner ++ "/" ++ repo ++ ".git").toList =
        ['g', 'i', 't', '@'] ++
          (host.data ++ ':' :: (owner.data ++ '/' :: (repo.data ++ dotGitChars))) := by
      show ("git@" ++ host ++ ":" ++ owner ++ "/" ++ repo ++ ".git").data = _
      simp only [String.data_append, List.append_assoc]
      rfl
    rw [parse_ssh_eq (repo.data ++ dotGitChars) _ hh ho hsegne hhc hoc hplat hl, hrepo2]
  · have hl : ("https://" ++ host ++ "/" ++ owner ++ "/" ++ repo).toList =
        ['h', 't', 't', 'p', 's', ':', '/', '/'] ++
          (host.data ++ '/' :: (owner.data ++ '/' :: repo.data)) := by
      show ("https://" ++ host ++ "/" ++ owner ++ "/" ++ repo).data = _
      simp only [String.data_append, List.append_assoc]
      rfl
    rw [parse_https_eq repo.data _ hh ho hrn hhs hoc hplat hl, hrepo]
  · have hl : ("https://" ++ host ++ "/" ++ owner ++ "/" ++ repo ++ ".git").toList =
        ['h', 't', 't', 'p', 's', ':', '/', '/'] ++
          (host.data ++ '/' :: (owner.data ++ '/' :: (repo.data ++ dotGitChars))) := by
      show ("https://" ++ host ++ "/" ++ owner ++ "/" ++ repo ++ ".git").data = _
      simp only [String.data_append, List.append_assoc]
      rfl
    rw [parse_https_eq (repo.data ++ dotGitChars) _ hh ho hsegne hhs hoc hplat hl, hrepo2]
  · have hl : ("git://" ++ host ++ "/" ++ owner ++ "/" ++ repo).toList =
        ['g', 'i', 't', ':', '/', '/'] ++
          (host.data ++ '/' :: (owner.data ++ '/' :: repo.data)) := by
      show ("git://" ++ host ++ "/" ++ owner ++ "/" ++ repo).data = _
      simp only [String.data_append, List.append_assoc]
      rfl
    rw [parse_git_eq repo.data _ hh ho hrn hhs hoc hplat hl, hrepo]
  · have hl : ("git://" ++ host ++ "/" ++ owner ++ "/" ++ repo ++ ".git").toList =
        ['g', 'i', 't', ':', '/', '/'] ++
          (host.data ++ '/' :: (owner.data ++ '/' :: (repo.data ++ dotGitChars))) := by
      show ("git://" ++ host ++ "/" ++ owner ++ "/" ++ repo ++ ".git").data = _
      simp only [String.data_append, List.append_assoc]
      rfl
    rw [parse_git_eq (repo.data ++ dotGitChars) _ hh ho hsegne hhs hoc hplat hl, hrepo2]

/-- C4 witness: `git@github.com:o/r.git` and `https://github.com/o/r` parse
identically, to platform github, owner `o`, repo `r`. -/
theorem c4_witness :
    parseRemoteUrl "git@github.com:o/r.git" = .ok ⟨"github", "github.com", "o", "r"⟩ ∧
    parseRemoteUrl "https://github.com/o/r" = .ok ⟨"github", "github.com", "o", "r"⟩ := by
  have h := c4_parse_shapes_agree "github.com" "o" "r" "github"
    (by decide) (by decide) (by decide) (by decide) (by decide) (by decide)
    (by decide) (by decide)
  refine ⟨?_, ?_⟩
  · have := h.1.2
    rwa [show ("git@" ++ "github.com" ++ ":" ++ "o" ++ "/" ++ "r" ++ ".git") =
      "git@github.com:o/r.git" from by decide] at this
  · have := h.2.1.1
    rwa [show ("https://" ++ "github.com" ++ "/" ++ "o" ++ "/" ++ "r") =
      "https://github.com/o/r" from by decide] at this

/-- C8 counterexample: the URL `git@github.com:o/r.git.git` is accepted and
its repo field `r.git` still ends with `.git` (only one suffix is stripped),
refuting "repo never ends with `.git`". -/
theorem c8_counterexample :
    parseRemoteUrl "git@github.com:o/r.git.git" =
      .ok ⟨"github", "github.com", "o", "r.git"⟩ ∧
    dotGitChars <:+ ("r.git" : String).data := by
  constructor
  · decide
  · decide

/-- C8 amended: the repo of an accepted URL never ends with `.git`, except
when the URL itself ends with `.git.git` (one suffix is stripped, the other
remains) or the final path segment is exactly `.git` (repo is `.git`). -/
theorem c8_repo_dotgit_amended :
    ∀ (url : String) (pr : ParsedRemote),
      parseRemoteUrl url = .ok pr →
      ¬ ((dotGitChars ++ dotGitChars) <:+ url.data) →
      pr.repo ≠ ".git" →
      ¬ (dotGitChars <:+ pr.repo.data) := by
  intro url pr hp hdd hne hsuf
  obtain ⟨seg, hsegne, hstrip, hsegsuf⟩ := parseRemoteUrl_inv hp
  rw [hstrip] at hsuf
  rcases stripDotGit_dotGit_suffix hsuf with hcase | hcase
  · exact hdd (hcase.trans hsegsuf)
  · apply hne
    apply String.ext
    rw [hstrip, hcase]
    rfl

/-- C8 witness: `git@github.com:o/r` is accepted with repo `r`, which does not
end in `.git`. -/
theorem c8_witness :
    ¬ (dotGitChars <:+ (ParsedRemote.mk "github" "github.com" "o" "r").repo.data) :=
  c8_repo_dotgit_amended "git@github.com:o/r" ⟨"github", "github.com", "o", "r"⟩
    (by decide) (by decide) (by decide)

/-- C9: in a directory whose only manifest is a `pyproject.toml` with
`project.name = "test-project"`, `resolve "pypi"` and `resolve "snyk"` produce
the PyPI and Snyk URLs of the spec scenario. -/
theorem c9_pypi_snyk_scenario :
    resolve "pypi" pyprojectDir = .ok "https://pypi.org/project/test-project/" ∧
    resolve "snyk" pyprojectDir = .ok "https://snyk.io/advisor/python/test-project" := by
  constructor
  · decide
  · decide

/-- C10: a requested name is split at its first colon only — everything after
the first colon is the ecosystem id, so an empty suffix (`snyk:`) or a
multi-colon name (`deps:npm:x`) is an explicit-ecosystem request failing with
`UnknownTarget`, never suffix-less auto-detection. -/
theorem c10_split_first_colon :
    (∀ pre post : String, ':' ∉ pre.data →
      splitTargetName (pre ++ ":" ++ post) = (pre, some post)) ∧
    (∀ d : Directory,
      failsWith (resolve "snyk:" d) .unknownTarget ∧
      failsWith (resolve "deps:npm:x" d) .unknownTarget) := by
  exact ⟨fun pre post h => splitTargetName_append h,
    fun d => ⟨⟨_, rfl, rfl⟩, ⟨_, rfl, rfl⟩⟩⟩

/-- C10 witness: `deps:npm:x` splits at the first colon (`deps` /
`npm:x`), and `snyk:` fails with `UnknownTarget` on a concrete directory. -/
theorem c10_witness :
    splitTargetName ("deps" ++ ":" ++ "npm:x") = ("deps", some "npm:x") ∧
    failsWith (resolve "snyk:" emptyDir) .unknownTarget :=
  ⟨c10_split_first_colon.1 "deps" "npm:x" (by decide),
   (c10_split_first_colon.2 emptyDir).1⟩

/-- C7 (code bug): the claim — a broken manifest is excluded without `detect`
raising, so it never prevents detection of the other ecosystems — is what the
spec intends, but the code violates it: a `pyproject.toml` that parses with a
non-dict `project` entry makes `_get_pypi_name` crash with `AttributeError`,
which `detect_ecosystems` does not catch, so detection raises and the valid
`package.json` alongside is never reported; remove the broken manifest and
npm is detected. -/
theorem c7_detect_attributeError_bug :
    detectEcosystemsX crashDirX = .error .attributeError ∧
    detectEcosystemsX npmOnlyDirX = .ok ["npm"] := by
  constructor
  · decide
  · decide

/-- C6: `readRemoteURL` fails (always with `NotARepository`) exactly when no
`.git` entry resolves to a git directory containing a config file; with a
config present it returns the section/key lookup, `none` (not an error) when
the remote section or its `url` key is absent. -/
theorem c6_remote_url_spec :
    ∀ (d : Directory) (r : String),
      ((∃ m, getRemoteUrl d r = .error (.notGitRepo m)) ↔ resolvedGitConfig d = none) ∧
      (∀ e, getRemoteUrl d r = .error e → e.kind = .notGitRepo) ∧
      (∀ cfg, resolvedGitConfig d = some cfg →
        getRemoteUrl d r = .ok (sectionUrlLookup cfg r)) := by
  intro d r
  rcases hg : getGitDir d with _ | oc
  · have hcfg : readGitConfig d =
        .error (.notGitRepo ("'" ++ d.path ++ "' is not inside a git repository")) := by
      unfold readGitConfig; rw [hg]
    have hru : getRemoteUrl d r =
        .error (.notGitRepo ("'" ++ d.path ++ "' is not inside a git repository")) := by
      unfold getRemoteUrl; rw [hcfg]
    have hres : resolvedGitConfig d = none := by unfold resolvedGitConfig; rw [hg]
    refine ⟨⟨fun _ => hres, fun _ => ⟨_, hru⟩⟩, fun e he => ?_, fun cfg hc => ?_⟩
    · rw [hru] at he
      simp only [Except.error.injEq] at he
      rw [← he]; rfl
    · rw [hres] at hc; exact absurd hc (by simp)
  · rcases oc with _ | cfg
    · have hcfg : readGitConfig d =
          .error (.notGitRepo ("'" ++ d.path ++ "' is not inside a git repository")) := by
        unfold readGitConfig; rw [hg]
      have hru : getRemoteUrl d r =
          .error (.notGitRepo ("'" ++ d.path ++ "' is not inside a git repository")) := by
        unfold getRemoteUrl; rw [hcfg]
      have hres : resolvedGitConfig d = none := by unfold resolvedGitConfig; rw [hg]
      refine ⟨⟨fun _ => hres, fun _ => ⟨_, hru⟩⟩, fun e he => ?_, fun cfg hc => ?_⟩
      · rw [hru] at he
        simp only [Except.error.injEq] at he
        rw [← he]; rfl
      · rw [hres] at hc; exact absurd hc (by simp)
    · have hcfg : readGitConfig d = .ok cfg := by unfold readGitConfig; rw [hg]
      have hru : getRemoteUrl d r = .ok (sectionUrlLookup cfg r) := by
        unfold getRemoteUrl sectionUrlLookup
        rw [hcfg]
        dsimp only
        rcases hl : cfg.sections.lookup ("remote \"" ++ r ++ "\"") with _ | kvs <;>
          rfl
      have hres : resolvedGitConfig d = some cfg := by unfold resolvedGitConfig; rw [hg]
      refine ⟨⟨fun he => ?_, fun hn => ?_⟩, fun e he => ?_, fun cfg' hc => ?_⟩
      · obtain ⟨m, hm⟩ := he
        rw [hru] at hm
        exact absurd hm (by simp)
      · rw [hres] at hn; exact absurd hn (by simp)
      · rw [hru] at he; exact absurd he (by simp)
      · rw [hres] at hc
        simp only [Option.some.injEq] at hc
        rw [← hc]
        exact hru

/-- C6 witness: a repository whose config has only an `origin` remote — asking
for `upstream` yields `.ok none`, not an error. -/
theorem c6_witness : getRemoteUrl githubDir "upstream" = .ok none := by
  have h := (c6_remote_url_spec githubDir "upstream").2.2
    ⟨[("remote \"origin\"", [("url", "git@github.com:testuser/testrepo.git")])]⟩ rfl
  simpa using h

/-- C1 counterexample: with `pyproject.toml` and a `*.gemspec` present, two
ecosystems are detected, yet `resolve "snyk"` without a suffix succeeds
silently (gems is not in snyk's ecosystem map), refuting "≥2 detected
ecosystems always fail". -/
theorem c1_counterexample :
    detectEcosystems pypiGemsDir = .ok ["pypi", "gems"] ∧
    resolve "snyk" pypiGemsDir = .ok "https://snyk.io/advisor/python/alpha" := by
  constructor
  · decide
  · decide

/-- C1 amended: for each multi-ecosystem target, when at least two of the
detected ecosystems are supported by the target, suffix-less resolution fails
with `ProjectMetadataError` whose message names every detected-and-supported
ecosystem — one is never picked silently. (Detected ecosystems the target
does not support are ignored, not reported.) -/
theorem c1_ambiguity_amended :
    ∀ t ∈ [snykTarget, librariesIOTarget, depsDevTarget, ecosystemsTarget],
    ∀ (d : Directory) (supported : List String),
      supported = (detectedSpec d).filter
        (fun e => (t.ecosystemUrlMap.lookup e).isSome) →
      2 ≤ supported.length →
      ∃ msg, multiGetUrl t none d = .error (.projectMetadata msg) ∧
        ∀ e ∈ supported, e.data <:+: msg.data := by
  intro t _ d supported hsup hlen
  obtain ⟨x, y, ys, hxyz⟩ : ∃ x y ys, supported = x :: y :: ys := by
    rcases supported with _ | ⟨x, xs⟩
    · simp at hlen
    · rcases xs with _ | ⟨y, ys⟩
      · simp at hlen
      · exact ⟨x, y, ys, rfl⟩
  have hfil : (detectedSpec d).filter
      (fun e => (t.ecosystemUrlMap.lookup e).isSome) = x :: y :: ys := by
    rw [← hsup, hxyz]
  have hauto : autoEco t (detectedSpec d) =
      .error (.projectMetadata (ambiguousMsg t (x :: y :: ys))) := by
    unfold autoEco
    rw [hfil]
  have hch : chooseEco t none d =
      .error (.projectMetadata (ambiguousMsg t (x :: y :: ys))) := by
    unfold chooseEco autoFromDetect
    dsimp only
    rw [detectEcosystems_eq d]
    dsimp only
    exact hauto
  refine ⟨ambiguousMsg t (x :: y :: ys), ?_, ?_⟩
  · unfold multiGetUrl
    rw [hch]
  · intro e he
    rw [hxyz] at he
    have h1 : e.data <:+: (joinComma (sortStrings (x :: y :: ys))).data :=
      mem_joinComma (mem_sortStrings.mpr he)
    show e.data <:+: (ambiguousMsg t (x :: y :: ys)).data
    unfold ambiguousMsg
    rw [String.data_append, String.data_append, String.data_append]
    exact ((h1.trans (List.suffix_append _ _).isInfix).trans
      (List.prefix_append _ _).isInfix).trans (List.prefix_append _ _).isInfix

/-- C1 witness: `pyproject.toml` (pypi) plus `package.json` (npm): snyk
without a suffix fails with a `ProjectMetadataError` naming both `pypi` and
`npm`. -/
theorem c1_witness :
    ∃ msg, multiGetUrl snykTarget none pypiNpmDir = .error (.projectMetadata msg) ∧
      ∀ e ∈ ["pypi", "npm"], e.data <:+: msg.data :=
  c1_ambiguity_amended snykTarget (List.mem_cons_self _ _) pypiNpmDir ["pypi", "npm"]
    (by decide) (by decide)

/-- C2 counterexample: in a git repository whose `origin` points at an
unrecognized host, the very first probed target raises `UnknownPlatformError`,
which is not in `UNAVAILABLE_ERRORS` — `list_available_targets` itself raises
instead of omitting the target. -/
theorem c2_counterexample :
    listAvailableTargets unknownHostDir =
      .error (.unknownPlatform "Unknown git hosting platform: example.com") := by
  decide

/-- C2 amended: the four kinds of `UNAVAILABLE_ERRORS` (`NoRemoteError`,
`NotGitRepoError`, `ProjectMetadataError`, `UnsupportedFeatureError`) raised
while probing are always swallowed — any error surfacing from
`list_available_targets` is of a different kind (e.g. `UnknownPlatformError`,
which propagates). -/
theorem c2_swallows_unavailable :
    ∀ (d : Directory) (e : OlinkError),
      listAvailableTargets d = .error e → isUnavailableError e = false := by
  intro d e h
  unfold listAvailableTargets at h
  rw [detectEcosystems_eq d] at h
  exact availFrom_error h

/-- C2 witness: the error surfacing from `list_available_targets` on the
unknown-host repository is not of a swallowed kind. -/
theorem c2_witness :
    isUnavailableError (.unknownPlatform "Unknown git hosting platform: example.com")
      = false :=
  c2_swallows_unavailable unknownHostDir _ (by decide)

theorem platformUrls_lookup_none_iff {p : String} :
    (PLATFORM_URLS.lookup p = none) ↔ p ∉ platformNames := by
  by_cases h1 : p = "github"
  · subst h1; decide
  · by_cases h2 : p = "gitlab"
    · subst h2; decide
    · by_cases h3 : p = "bitbucket"
      · subst h3; decide
      · have b1 : (p == "github") = false := beq_eq_false_iff_ne.mpr h1
        have b2 : (p == "gitlab") = false := beq_eq_false_iff_ne.mpr h2
        have b3 : (p == "bitbucket") = false := beq_eq_false_iff_ne.mpr h3
        have hl : PLATFORM_URLS.lookup p = none := by
          simp [PLATFORM_URLS, List.lookup, b1, b2, b3]
        simp [hl, platformNames, h1, h2, h3]

theorem getPlatformUrl_not_unknownPlatform {base p page : String}
    {pages : List (String × Option String)}
    (h : PLATFORM_URLS.lookup p = some pages) (m : String) :
    getPlatformUrl base p page ≠ .error (.unknownPlatform m) := by
  intro hm
  unfold getPlatformUrl at hm
  rw [h] at hm
  dsimp only at hm
  split at hm <;> simp at hm

/-- C5: `pagePath` is total over the static table — `UnknownPlatform` exactly
for unrecognized platforms, `UnsupportedFeature` (among recognized
platform/page pairs) exactly for gitlab:discussions, bitbucket:security and
bitbucket:discussions, and otherwise the base URL plus the fixed suffix. -/
theorem c5_pagePath_spec :
    ∀ base platform page : String,
      ((∃ m, getPlatformUrl base platform page = .error (.unknownPlatform m)) ↔
        platform ∉ platformNames) ∧
      (platform ∈ platformNames → page ∈ pageNames →
        ((∃ m, getPlatformUrl base platform page = .error (.unsupportedFeature m)) ↔
          (platform, page) ∈ unsupportedPairs)) ∧
      (∀ pages suffix, PLATFORM_URLS.lookup platform = some pages →
        pages.lookup page = some (some suffix) →
        getPlatformUrl base platform page = .ok (base ++ suffix)) := by
  intro base platform page
  refine ⟨⟨?_, ?_⟩, ?_, ?_⟩
  · rintro ⟨m, hm⟩
    by_contra hp
    obtain ⟨pages, hpg⟩ : ∃ pages, PLATFORM_URLS.lookup platform = some pages := by
      rcases hpn : PLATFORM_URLS.lookup platform with _ | pages
      · exact absurd hp (platformUrls_lookup_none_iff.mp hpn)
      · exact ⟨pages, rfl⟩
    exact getPlatformUrl_not_unknownPlatform hpg m hm
  · intro hp
    have hnone := platformUrls_lookup_none_iff.mpr hp
    refine ⟨"Unknown platform: '" ++ platform ++ "'", ?_⟩
    unfold getPlatformUrl
    rw [hnone]
  · intro hplat hpage
    simp only [platformNames, List.mem_cons, List.not_mem_nil, or_false] at hplat
    simp only [pageNames, List.mem_cons, List.not_mem_nil, or_false] at hpage
    rcases hplat with rfl | rfl | rfl <;>
      rcases hpage with rfl | rfl | rfl | rfl | rfl | rfl | rfl | rfl | rfl <;>
      simp [getPlatformUrl, PLATFORM_URLS, unsupportedPairs, List.lookup]
  · intro pages suffix hpg hlp
    unfold getPlatformUrl
    rw [hpg]
    dsimp only
    rw [hlp]

/-- C5 witness: gitlab pulls resolves to the merge-requests suffix appended
to the base URL; gitlab discussions fails `UnsupportedFeature`. -/
theorem c5_witness :
    getPlatformUrl "https://x/o/r" "gitlab" "pulls" = .ok "https://x/o/r/-/merge_requests" ∧
    (∃ m, getPlatformUrl "https://x/o/r" "gitlab" "discussions" =
      .error (.unsupportedFeature m)) := by
  constructor
  · have h := (c5_pagePath_spec "https://x/o/r" "gitlab" "pulls").2.2 _
      "/-/merge_requests" rfl rfl
    simpa using h
  · exact ((c5_pagePath_spec "https://x/o/r" "gitlab" "discussions").2.1
      (by decide) (by decide)).mpr (by decide)

/-- C3 counterexample: `resolve "snyk:gems"` — an ecosystem id that exists but
is not a key of snyk's map — fails with `UnknownTargetError`, not with
`ProjectMetadataError` as the claim's first half states. -/
theorem c3_counterexample :
    resolve "snyk:gems" emptyDir = .error (.unknownTarget
      "Target 'snyk' doesn't support ecosystem 'gems'. Supported: cargo, go, npm, pypi") ∧
    ∀ m, resolve "snyk:gems" emptyDir ≠ .error (.projectMetadata m) := by
  have h : resolve "snyk:gems" emptyDir = .error (.unknownTarget
      "Target 'snyk' doesn't support ecosystem 'gems'. Supported: cargo, go, npm, pypi") := by
    decide
  refine ⟨h, fun m hm => ?_⟩
  rw [h] at hm
  simp at hm

/-- C3 amended: through the facade, every suffix failure — base name absent,
base name not a multi-ecosystem target, or suffix not a key of the target's
ecosystem map — raises `UnknownTarget`; `ProjectMetadataMissing` for an
unsupported ecosystem arises only when a multi-ecosystem target is invoked
directly with that ecosystem and `MultiEcosystemTarget.get_url` runs its own
check, which it does only for a truthy (nonempty) ecosystem string: a target
constructed directly with the empty ecosystem behaves exactly as if none had
been given (the `if self._ecosystem:` guard) and auto-detects. -/
theorem c3_suffix_validation_amended :
    (∀ (name e : String) (d : Directory), ':' ∉ name.data →
      REGISTRY.lookup name = none →
      failsWith (resolve (name ++ ":" ++ e) d) .unknownTarget) ∧
    (∀ (name e : String) (d : Directory) (tdef : TargetDef)
      (f : Directory → Except OlinkError String), ':' ∉ name.data →
      REGISTRY.lookup name = some tdef → tdef.kind = .plain f →
      failsWith (resolve (name ++ ":" ++ e) d) .unknownTarget) ∧
    (∀ (name e : String) (d : Directory) (tdef : TargetDef) (s : MultiEcoSpec),
      ':' ∉ name.data → REGISTRY.lookup name = some tdef → tdef.kind = .multi s →
      s.ecosystemUrlMap.lookup e = none →
      failsWith (resolve (name ++ ":" ++ e) d) .unknownTarget) ∧
    (∀ (t : MultiEcoSpec) (e : String) (d : Directory), e ≠ "" →
      t.ecosystemUrlMap.lookup e = none →
      multiGetUrl t (some e) d = .error (.projectMetadata ("'" ++ t.name ++
        "' doesn't support ecosystem '" ++ e ++ "'. Supported: " ++ supportedJoin t))) ∧
    (∀ (t : MultiEcoSpec) (d : Directory),
      multiGetUrl t (some "") d = multiGetUrl t none d) := by
  refine ⟨?_, ?_, ?_, ?_, fun t d => rfl⟩
  · intro name e d hcol hlook
    refine ⟨.unknownTarget ("Unknown target: '" ++ name ++ "'. Available targets: " ++
      joinComma (sortStrings (REGISTRY.map Prod.fst))), ?_, rfl⟩
    unfold resolve getTarget
    rw [splitTargetName_append hcol]
    dsimp only
    rw [hlook]
  · intro name e d tdef f hcol hlook htk
    refine ⟨.unknownTarget ("Target '" ++ name ++
      "' doesn't support ecosystem suffix. Use '" ++ name ++ "' without suffix."),
      ?_, rfl⟩
    unfold resolve getTarget
    rw [splitTargetName_append hcol]
    dsimp only
    rw [hlook]
    dsimp only
    rw [htk]
  · intro name e d tdef s hcol hlook htk hlk
    refine ⟨.unknownTarget ("Target '" ++ name ++ "' doesn't support ecosystem '" ++
      e ++ "'. Supported: " ++ supportedJoin s), ?_, rfl⟩
    unfold resolve getTarget
    rw [splitTargetName_append hcol]
    dsimp only
    rw [hlook]
    dsimp only
    rw [htk]
    dsimp only
    rw [hlk]
    simp only [Option.isSome_none]
    rw [if_neg (by decide)]
  · intro t e d he hlk
    unfold multiGetUrl chooseEco
    dsimp only
    rw [if_neg he, hlk]
    simp only [Option.isSome_none]
    rw [if_neg (by decide)]

/-- C3 witness: `snyk:gems` through the facade fails `UnknownTarget`; a
directly constructed snyk target with the nonempty ecosystem `gems` fails
`ProjectMetadataError`; with the empty ecosystem it behaves as unset. -/
theorem c3_witness :
    failsWith (resolve "snyk:gems" emptyDir) .unknownTarget ∧
    multiGetUrl snykTarget (some "gems") emptyDir =
      .error (.projectMetadata ("'" ++ snykTarget.name ++
        "' doesn't support ecosystem '" ++ "gems" ++ "'. Supported: " ++
        supportedJoin snykTarget)) ∧
    multiGetUrl snykTarget (some "") emptyDir = multiGetUrl snykTarget none emptyDir := by
  refine ⟨?_, ?_, ?_⟩
  · exact c3_suffix_validation_amended.2.2.1 "snyk" "gems" emptyDir _ snykTarget
      (by decide) rfl rfl (by decide)
  · exact c3_suffix_validation_amended.2.2.2.1 snykTarget "gems" emptyDir
      (by decide) (by decide)
  · exact c3_suffix_validation_amended.2.2.2.2 snykTarget emptyDir

end Olink
